import Mathlib

/-!
Decode-and-dispatch of low-level mouse events.

A shallow embedding of `hook.go` (package `mousehook`).

* Go machine integers are `Nat` (unsigned) and `Int` (signed); every conversion
  that can wrap is written with an explicit `% 2 ^ w`.
* The package-level variables (`hook`, `onMouseDown`, `onMouseUp`,
  `onMouseWheel`) are the fields of `Globals`, passed explicitly.
* A listener is an opaque Go function value: it is identified by a number, and
  calling it is recorded as an `Effect`.  A nil function value is `none`.
  What a listener does when called is outside the model: it is taken to return
  normally and to leave the package variables alone.
* The operating system (the memory behind `lParam`, the replies of the
  `user32.dll` procedures) is a `Platform` value; every call into `user32.dll`
  is recorded as an `Effect`, in program order.
-/

namespace mousehook

/-! Constants (`hook.go`, lines 21-34). -/

abbrev WH_MOUSE_LL : Nat := 14
abbrev WM_LBUTTONDOWN : Nat := 0x0201
abbrev WM_LBUTTONUP : Nat := 0x0202
abbrev WM_RBUTTONDOWN : Nat := 0x0204
abbrev WM_RBUTTONUP : Nat := 0x0205
abbrev WM_MBUTTONDOWN : Nat := 0x0207
abbrev WM_MBUTTONUP : Nat := 0x0208
abbrev WM_MOUSEWHEEL : Nat := 0x020A
abbrev WM_XBUTTONDOWN : Nat := 0x020B
abbrev WM_XBUTTONUP : Nat := 0x020C
abbrev XBUTTON1 : Nat := 0x0001
abbrev XBUTTON2 : Nat := 0x0002

/-! Data model (`hook.go`, lines 36-84). -/

/-- Go `type POINT struct { X, Y int32 }`. -/
structure POINT where
  X : Int
  Y : Int
  deriving DecidableEq, Repr

/-- Go `type MSLLHOOKSTRUCT struct`: `MouseData`, `Flags`, `Time` are `uint32`,
`DwExtraInfo` is `uintptr`. -/
structure MSLLHOOKSTRUCT where
  Pt : POINT
  MouseData : Nat
  Flags : Nat
  Time : Nat
  DwExtraInfo : Nat
  deriving DecidableEq, Repr

/-- Go `type MouseButton string`. -/
abbrev MouseButton := String

abbrev LeftButton : MouseButton := "LeftButton"
abbrev RightButton : MouseButton := "RightButton"
abbrev MiddleButton : MouseButton := "MiddleButton"
abbrev XButton1 : MouseButton := "XButton1"
abbrev XButton2 : MouseButton := "XButton2"
abbrev Wheel : MouseButton := "Wheel"

/-- Go `type MouseEvent struct { Button MouseButton; X, Y int32; Delta int16 }`. -/
structure MouseEvent where
  Button : MouseButton
  X : Int
  Y : Int
  Delta : Int
  deriving DecidableEq, Repr

/-- A non-nil Go value of type `func(MouseEvent)`, identified by a number. -/
abbrev Listener := Nat

/-- The three package-level callback variables. -/
inductive Slot where
  | onMouseDown
  | onMouseUp
  | onMouseWheel
  deriving DecidableEq, Repr

/-- The package-level variables of `hook.go`: `hook HHOOK` and the three
callback variables (`none` is Go's nil). -/
structure Globals where
  hook : Nat
  onMouseDown : Option Listener
  onMouseUp : Option Listener
  onMouseWheel : Option Listener
  deriving DecidableEq, Repr

/-- What the program does to the outside: calling a listener read from a
callback variable, and the calls into `user32.dll`. -/
inductive Effect where
  | call (slot : Slot) (f : Listener) (event : MouseEvent)
  | callNextHookEx (hhk nCode wParam lParam : Nat)
  | setWindowsHookEx (idHook : Nat)
  | unhookWindowsHookEx (hhk : Nat)
  | getMessage
  | println (text : String)
  deriving DecidableEq, Repr

/-- The operating system as the program sees it: the record stored at an
address, and the first result of each `user32.dll` procedure
(`CallNextHookEx` by its four arguments, `SetWindowsHookExW`,
`UnhookWindowsHookEx` by its argument, and `GetMessageW` by the number of
earlier calls). -/
structure Platform where
  mem : Nat → MSLLHOOKSTRUCT
  callNextHookEx : Nat → Nat → Nat → Nat → Nat
  setWindowsHookEx : Nat
  unhookWindowsHookEx : Nat → Nat
  getMessage : Nat → Nat

/-! Integer conversions. -/

/-- Go `int16(x)` for an unsigned `x`: keep the low 16 bits, read them as
two's complement. -/
def int16 (x : Nat) : Int :=
  if x % 2 ^ 16 < 2 ^ 15 then ((x % 2 ^ 16 : Nat) : Int) else ((x % 2 ^ 16 : Nat) : Int) - 2 ^ 16

/-- Go `int32(x)` for an unsigned `x`. -/
def int32 (x : Nat) : Int :=
  if x % 2 ^ 32 < 2 ^ 31 then ((x % 2 ^ 32 : Nat) : Int) else ((x % 2 ^ 32 : Nat) : Int) - 2 ^ 32

/-- Go `uintptr(n)` for `n int` (both 64 bits wide on windows/amd64): the same
bit pattern, read as unsigned. -/
def uintptr (n : Int) : Nat :=
  (n % 2 ^ 64).toNat

/-- Go `int(u)` for `u uintptr`: the 64-bit pattern read as two's complement. -/
def int (u : Nat) : Int :=
  if u % 2 ^ 64 < 2 ^ 63 then ((u % 2 ^ 64 : Nat) : Int) else ((u % 2 ^ 64 : Nat) : Int) - 2 ^ 64

/-! Operations. -/

/-- Go `if cb != nil { cb(event) }`, for the callback variable `slot` whose
current value is `cb`. -/
def invoke (slot : Slot) (cb : Option Listener) (event : MouseEvent) : List Effect :=
  match cb with
  | some f => [Effect.call slot f event]
  | none => []

/-- What one call of `mouseProc` leaves behind: the package variables, what it
did to the outside (oldest first), and the value it returns. -/
structure Outcome where
  globals : Globals
  effects : List Effect
  ret : Nat
  deriving DecidableEq, Repr

/-- Go `func mouseProc(nCode int, wParam uintptr, lParam uintptr) uintptr`
(`hook.go`, lines 133-201). -/
def mouseProc (os : Platform) (g : Globals) (nCode : Int) (wParam lParam : Nat) : Outcome :=
  let handled : List Effect :=
    if nCode = 0 then
      let mouse := os.mem lParam
      let event : MouseEvent := { Button := "", X := mouse.Pt.X, Y := mouse.Pt.Y, Delta := 0 }
      if wParam = WM_LBUTTONDOWN then
        let event := { event with Button := LeftButton }
        invoke Slot.onMouseDown g.onMouseDown event
      else if wParam = WM_LBUTTONUP then
        let event := { event with Button := LeftButton }
        invoke Slot.onMouseUp g.onMouseUp event
      else if wParam = WM_RBUTTONDOWN then
        let event := { event with Button := RightButton }
        invoke Slot.onMouseDown g.onMouseDown event
      else if wParam = WM_RBUTTONUP then
        let event := { event with Button := RightButton }
        invoke Slot.onMouseUp g.onMouseUp event
      else if wParam = WM_MBUTTONDOWN then
        let event := { event with Button := MiddleButton }
        invoke Slot.onMouseDown g.onMouseDown event
      else if wParam = WM_MBUTTONUP then
        let event := { event with Button := MiddleButton }
        invoke Slot.onMouseUp g.onMouseUp event
      else if wParam = WM_XBUTTONDOWN then
        let event :=
          if (mouse.MouseData >>> 16) &&& XBUTTON1 ≠ 0 then { event with Button := XButton1 }
          else if (mouse.MouseData >>> 16) &&& XBUTTON2 ≠ 0 then { event with Button := XButton2 }
          else event
        invoke Slot.onMouseDown g.onMouseDown event
      else if wParam = WM_XBUTTONUP then
        let event :=
          if (mouse.MouseData >>> 16) &&& XBUTTON1 ≠ 0 then { event with Button := XButton1 }
          else if (mouse.MouseData >>> 16) &&& XBUTTON2 ≠ 0 then { event with Button := XButton2 }
          else event
        invoke Slot.onMouseUp g.onMouseUp event
      else if wParam = WM_MOUSEWHEEL then
        let event := { event with Button := Wheel }
        let event := { event with Delta := int16 (mouse.MouseData >>> 16) }
        invoke Slot.onMouseWheel g.onMouseWheel event
      else []
    else []
  let ret := os.callNextHookEx 0 (uintptr nCode) wParam lParam
  { globals := g
    effects := handled ++ [Effect.callNextHookEx 0 (uintptr nCode) wParam lParam]
    ret := ret }

/-- Go `func SetMouseDownCallback(callback func(MouseEvent))`. -/
def SetMouseDownCallback (g : Globals) (callback : Option Listener) : Globals :=
  { g with onMouseDown := callback }

/-- Go `func SetMouseUpCallback(callback func(MouseEvent))`. -/
def SetMouseUpCallback (g : Globals) (callback : Option Listener) : Globals :=
  { g with onMouseUp := callback }

/-- Go `func SetMouseWheelCallback(callback func(MouseEvent))`. -/
def SetMouseWheelCallback (g : Globals) (callback : Option Listener) : Globals :=
  { g with onMouseWheel := callback }

/-- Go `func setHook() HHOOK`: the handle `SetWindowsHookExW` returned, after a
diagnostic line when it is 0. -/
def setHook (os : Platform) : Nat × List Effect :=
  let h := os.setWindowsHookEx
  let printed : List Effect := if h = 0 then [Effect.println "设置钩子失败:"] else []
  (h, Effect.setWindowsHookEx WH_MOUSE_LL :: printed)

/-- Go `func unhook()`: calls `UnhookWindowsHookEx` on the stored handle and
discards what it returns. -/
def unhook (_os : Platform) (g : Globals) : Globals × List Effect :=
  (g, [Effect.unhookWindowsHookEx g.hook])

/-- The `for` loop of `Start`, from the `i`-th call of `GetMessageW` on, run for
at most `fuel` iterations: `none` when the loop is still running after them.
The runs of `mouseProc` that the operating system starts while `GetMessageW`
waits are runs of their own and are not listed among the effects of the loop. -/
def pump (os : Platform) : Nat → Nat → Option (List Effect)
  | 0, _ => none
  | fuel + 1, i =>
    let ret := os.getMessage i
    if int32 ret = -1 then
      some [Effect.getMessage, Effect.println "GetMessage 错误:"]
    else
      (pump os fuel (i + 1)).map fun rest => Effect.getMessage :: rest

/-- Go `func Start()`: install, pump, and (deferred) `unhook` when the loop is
left; `none` when the loop is still running after `fuel` iterations. -/
def Start (os : Platform) (g : Globals) (fuel : Nat) : Option (Globals × List Effect) :=
  let installed := setHook os
  let g1 : Globals := { g with hook := installed.1 }
  match pump os fuel 0 with
  | none => none
  | some pumped =>
    let released := unhook os g1
    some (released.1, installed.2 ++ pumped ++ released.2)

/-- The listener calls among the effects of a run, oldest first: which callback
variable was read, which listener was called, with which event. -/
def calls : List Effect → List (Slot × Listener × MouseEvent)
  | [] => []
  | Effect.call slot f event :: rest => (slot, f, event) :: calls rest
  | Effect.callNextHookEx _ _ _ _ :: rest => calls rest
  | Effect.setWindowsHookEx _ :: rest => calls rest
  | Effect.unhookWindowsHookEx _ :: rest => calls rest
  | Effect.getMessage :: rest => calls rest
  | Effect.println _ :: rest => calls rest

/-! Arithmetic of the conversions and of the bit tests. -/

theorem uintptr_zero : uintptr 0 = 0 := by
  decide

theorem int_uintptr (n : Int) (hlo : -2 ^ 63 ≤ n) (hhi : n < 2 ^ 63) : int (uintptr n) = n := by
  unfold int uintptr
  have h64 : (2 : Int) ^ 64 = 18446744073709551616 := by norm_num
  have h63 : (2 : Int) ^ 63 = 9223372036854775808 := by norm_num
  have n64 : (2 : Nat) ^ 64 = 18446744073709551616 := by norm_num
  have n63 : (2 : Nat) ^ 63 = 9223372036854775808 := by norm_num
  rw [h63] at hlo hhi
  rw [h64, n64, n63]
  split <;> omega

theorem int16_shiftRight_encode (d : Int) (w : Nat) (hlo : -2 ^ 15 ≤ d) (hhi : d < 2 ^ 15)
    (hw : w < 2 ^ 16) : int16 (((d % 2 ^ 16).toNat * 2 ^ 16 + w) >>> 16) = d := by
  have hdiv : ((d % 2 ^ 16).toNat * 2 ^ 16 + w) >>> 16 = (d % 2 ^ 16).toNat := by
    rw [Nat.shiftRight_eq_div_pow]
    have hpos : 0 < 2 ^ 16 := by norm_num
    rw [Nat.mul_comm, Nat.mul_add_div hpos, Nat.div_eq_of_lt hw, Nat.add_zero]
  rw [hdiv]
  unfold int16
  have h16 : (2 : Int) ^ 16 = 65536 := by norm_num
  have h15 : (2 : Int) ^ 15 = 32768 := by norm_num
  have n16 : (2 : Nat) ^ 16 = 65536 := by norm_num
  have n15 : (2 : Nat) ^ 15 = 32768 := by norm_num
  rw [h15] at hlo hhi
  rw [h16, n16, n15]
  split <;> omega

theorem and_XBUTTON1_ne_zero_iff (x : Nat) : x &&& XBUTTON1 ≠ 0 ↔ x % 2 = 1 := by
  show x &&& 1 ≠ 0 ↔ x % 2 = 1
  rw [Nat.and_one_is_mod]
  omega

theorem and_two_eq (x : Nat) : x &&& 2 = 2 * (x / 2 % 2) := by
  apply Nat.eq_of_testBit_eq
  intro i
  rw [Nat.testBit_and]
  have h2 : (2 : Nat) = 2 ^ 1 := rfl
  have hoff : i ≠ 1 → Nat.testBit 2 i = false := by
    intro hi
    conv => lhs; rw [h2]
    rw [Nat.testBit_two_pow]
    simp
    omega
  rcases Nat.mod_two_eq_zero_or_one (x / 2) with h | h
  · rw [h]
    by_cases hi : i = 1
    · subst hi
      simp [Nat.testBit_to_div_mod, h]
    · simp [hoff hi]
  · rw [h]
    by_cases hi : i = 1
    · subst hi
      simp [Nat.testBit_to_div_mod, h]
    · simp [hoff hi]

theorem and_XBUTTON2_ne_zero_iff (x : Nat) : x &&& XBUTTON2 ≠ 0 ↔ x / 2 % 2 = 1 := by
  show x &&& 2 ≠ 0 ↔ x / 2 % 2 = 1
  rw [and_two_eq]
  omega

/-! The wheel branch. -/

/-- C1. Wheel delta round trip: when `MouseData` carries the signed 16-bit delta
`d` (as `d mod 2^16`) in its high word and any `w` in its low word, `mouseProc`
with `nCode = 0` and `WM_MOUSEWHEEL` hands the listener of `onMouseWheel` the
event with `Button = Wheel`, the record's position and `Delta = d`, exactly
once and before forwarding; the decoded delta is the two's-complement value of
`MouseData >> 16`. -/
theorem wheel_delta_round_trip (os : Platform) (g : Globals) (lParam : Nat) (d : Int) (w : Nat)
    (hlo : -2 ^ 15 ≤ d) (hhi : d < 2 ^ 15) (hw : w < 2 ^ 16)
    (hdata : (os.mem lParam).MouseData = (d % 2 ^ 16).toNat * 2 ^ 16 + w) :
    int16 ((os.mem lParam).MouseData >>> 16) = d ∧
    (∀ f, g.onMouseWheel = some f →
      (mouseProc os g 0 WM_MOUSEWHEEL lParam).effects =
        [Effect.call Slot.onMouseWheel f
            { Button := Wheel, X := (os.mem lParam).Pt.X, Y := (os.mem lParam).Pt.Y, Delta := d },
          Effect.callNextHookEx 0 0 WM_MOUSEWHEEL lParam]) ∧
    (g.onMouseWheel = none →
      (mouseProc os g 0 WM_MOUSEWHEEL lParam).effects =
        [Effect.callNextHookEx 0 0 WM_MOUSEWHEEL lParam]) := by
  have hdelta : int16 ((os.mem lParam).MouseData >>> 16) = d := by
    rw [hdata]
    exact int16_shiftRight_encode d w hlo hhi hw
  refine ⟨hdelta, ?_, ?_⟩
  · intro f hf
    simp [mouseProc, invoke, hf, hdelta, uintptr_zero]
  · intro hf
    simp [mouseProc, invoke, hf, uintptr_zero]

/-- Witness of C1: position (5,5) and `MouseData = 0xFF880000` (delta -120)
give the event `{Wheel, 5, 5, -120}`. -/
theorem wheel_delta_round_trip_witness :
    (0xFF880000 : Nat) = ((-120 : Int) % 2 ^ 16).toNat * 2 ^ 16 + 0 ∧
    (mouseProc ⟨fun _ => ⟨⟨5, 5⟩, 0xFF880000, 0, 0, 0⟩, fun _ _ _ _ => 1, 0, fun _ => 1, fun _ => 0⟩
        ⟨0, none, none, some 3⟩ 0 WM_MOUSEWHEEL 64).effects =
      [Effect.call Slot.onMouseWheel 3 { Button := Wheel, X := 5, Y := 5, Delta := -120 },
        Effect.callNextHookEx 0 0 WM_MOUSEWHEEL 64] :=
  ⟨by decide,
    (wheel_delta_round_trip ⟨fun _ => ⟨⟨5, 5⟩, 0xFF880000, 0, 0, 0⟩, fun _ _ _ _ => 1, 0, fun _ => 1, fun _ => 0⟩
      ⟨0, none, none, some 3⟩ 64 (-120) 0 (by decide) (by decide) (by decide) (by decide)).2.1 3 rfl⟩

/-! The plain button branches. -/

/-- C2. Button-down mapping: with `nCode = 0`, each of `WM_LBUTTONDOWN`,
`WM_RBUTTONDOWN`, `WM_MBUTTONDOWN` builds the event with `Button` equal to
`LeftButton`, `RightButton`, `MiddleButton` respectively, the record's position
and `Delta = 0`; that event is handed to the listener of `onMouseDown` when one
is registered (exactly once, before forwarding), and nothing is called when
none is. -/
theorem button_down_mapping (os : Platform) (g : Globals) (lParam wParam : Nat)
    (button : MouseButton)
    (hcode : (wParam, button) ∈ [(WM_LBUTTONDOWN, LeftButton), (WM_RBUTTONDOWN, RightButton),
      (WM_MBUTTONDOWN, MiddleButton)]) :
    (∀ f, g.onMouseDown = some f →
      (mouseProc os g 0 wParam lParam).effects =
        [Effect.call Slot.onMouseDown f
            { Button := button, X := (os.mem lParam).Pt.X, Y := (os.mem lParam).Pt.Y, Delta := 0 },
          Effect.callNextHookEx 0 0 wParam lParam]) ∧
    (g.onMouseDown = none →
      (mouseProc os g 0 wParam lParam).effects = [Effect.callNextHookEx 0 0 wParam lParam]) := by
  simp only [List.mem_cons, Prod.mk.injEq, List.not_mem_nil, or_false] at hcode
  rcases hcode with ⟨rfl, rfl⟩ | ⟨rfl, rfl⟩ | ⟨rfl, rfl⟩
  · constructor <;> intro f <;> intros <;> simp [mouseProc, invoke, uintptr_zero, *]
  · constructor <;> intro f <;> intros <;> simp [mouseProc, invoke, uintptr_zero, *]
  · constructor <;> intro f <;> intros <;> simp [mouseProc, invoke, uintptr_zero, *]

/-- Witness of C2: a right-button press at (7,-9) reaches the registered
on-down listener as `{RightButton, 7, -9, 0}`. -/
theorem button_down_mapping_witness :
    (WM_RBUTTONDOWN, RightButton) ∈ [(WM_LBUTTONDOWN, LeftButton), (WM_RBUTTONDOWN, RightButton),
      (WM_MBUTTONDOWN, MiddleButton)] ∧
    (mouseProc ⟨fun _ => ⟨⟨7, -9⟩, 0xABCD1234, 1, 2, 3⟩, fun _ _ _ _ => 1, 0, fun _ => 1, fun _ => 0⟩
        ⟨0, some 1, some 2, some 3⟩ 0 WM_RBUTTONDOWN 64).effects =
      [Effect.call Slot.onMouseDown 1 { Button := RightButton, X := 7, Y := -9, Delta := 0 },
        Effect.callNextHookEx 0 0 WM_RBUTTONDOWN 64] :=
  ⟨by decide,
    (button_down_mapping ⟨fun _ => ⟨⟨7, -9⟩, 0xABCD1234, 1, 2, 3⟩, fun _ _ _ _ => 1, 0, fun _ => 1, fun _ => 0⟩
      ⟨0, some 1, some 2, some 3⟩ 64 WM_RBUTTONDOWN RightButton (by decide)).1 1 rfl⟩

/-- C3. Button-up mapping: with `nCode = 0`, each of `WM_LBUTTONUP`,
`WM_RBUTTONUP`, `WM_MBUTTONUP` builds the event with the same button as the
matching down code (`LeftButton`, `RightButton`, `MiddleButton`); that event is
handed to the listener of `onMouseUp` when one is registered, and the listener
of `onMouseDown` is never called, whatever the registry holds. -/
theorem button_up_mapping (os : Platform) (g : Globals) (lParam wParam : Nat)
    (button : MouseButton)
    (hcode : (wParam, button) ∈ [(WM_LBUTTONUP, LeftButton), (WM_RBUTTONUP, RightButton),
      (WM_MBUTTONUP, MiddleButton)]) :
    (∀ f, g.onMouseUp = some f →
      (mouseProc os g 0 wParam lParam).effects =
        [Effect.call Slot.onMouseUp f
            { Button := button, X := (os.mem lParam).Pt.X, Y := (os.mem lParam).Pt.Y, Delta := 0 },
          Effect.callNextHookEx 0 0 wParam lParam]) ∧
    (g.onMouseUp = none →
      (mouseProc os g 0 wParam lParam).effects = [Effect.callNextHookEx 0 0 wParam lParam]) ∧
    (∀ f event, Effect.call Slot.onMouseDown f event ∉ (mouseProc os g 0 wParam lParam).effects) := by
  simp only [List.mem_cons, Prod.mk.injEq, List.not_mem_nil, or_false] at hcode
  rcases hcode with ⟨rfl, rfl⟩ | ⟨rfl, rfl⟩ | ⟨rfl, rfl⟩
  · refine ⟨?_, ?_, ?_⟩
    · intro f hf
      simp [mouseProc, invoke, uintptr_zero, hf]
    · intro hf
      simp [mouseProc, invoke, uintptr_zero, hf]
    · intro f event
      cases hg : g.onMouseUp <;> simp [mouseProc, invoke, hg]
  · refine ⟨?_, ?_, ?_⟩
    · intro f hf
      simp [mouseProc, invoke, uintptr_zero, hf]
    · intro hf
      simp [mouseProc, invoke, uintptr_zero, hf]
    · intro f event
      cases hg : g.onMouseUp <;> simp [mouseProc, invoke, hg]
  · refine ⟨?_, ?_, ?_⟩
    · intro f hf
      simp [mouseProc, invoke, uintptr_zero, hf]
    · intro hf
      simp [mouseProc, invoke, uintptr_zero, hf]
    · intro f event
      cases hg : g.onMouseUp <;> simp [mouseProc, invoke, hg]

/-- Witness of C3: a middle-button release reaches the on-up listener (2), not
the on-down listener (1). -/
theorem button_up_mapping_witness :
    (WM_MBUTTONUP, MiddleButton) ∈ [(WM_LBUTTONUP, LeftButton), (WM_RBUTTONUP, RightButton),
      (WM_MBUTTONUP, MiddleButton)] ∧
    (mouseProc ⟨fun _ => ⟨⟨7, -9⟩, 0xABCD1234, 1, 2, 3⟩, fun _ _ _ _ => 1, 0, fun _ => 1, fun _ => 0⟩
        ⟨0, some 1, some 2, some 3⟩ 0 WM_MBUTTONUP 64).effects =
      [Effect.call Slot.onMouseUp 2 { Button := MiddleButton, X := 7, Y := -9, Delta := 0 },
        Effect.callNextHookEx 0 0 WM_MBUTTONUP 64] :=
  ⟨by decide,
    (button_up_mapping ⟨fun _ => ⟨⟨7, -9⟩, 0xABCD1234, 1, 2, 3⟩, fun _ _ _ _ => 1, 0, fun _ => 1, fun _ => 0⟩
      ⟨0, some 1, some 2, some 3⟩ 64 WM_MBUTTONUP MiddleButton (by decide)).1 2 rfl⟩

/-! The extended-button branches. -/

/-- C4. Extended button 1: when bit 0x0001 of the high word of `MouseData` is
set, `mouseProc` with `nCode = 0` decodes `WM_XBUTTONDOWN` and `WM_XBUTTONUP` to
the event `{XButton1, Pt.X, Pt.Y, 0}`, handed exactly once to the listener of
`onMouseDown` (resp. `onMouseUp`) before forwarding. -/
theorem xbutton1_decoding (os : Platform) (g : Globals) (lParam : Nat)
    (hbit : (os.mem lParam).MouseData / 2 ^ 16 % 2 = 1) :
    (∀ f, g.onMouseDown = some f →
      (mouseProc os g 0 WM_XBUTTONDOWN lParam).effects =
        [Effect.call Slot.onMouseDown f
            { Button := XButton1, X := (os.mem lParam).Pt.X, Y := (os.mem lParam).Pt.Y, Delta := 0 },
          Effect.callNextHookEx 0 0 WM_XBUTTONDOWN lParam]) ∧
    (∀ f, g.onMouseUp = some f →
      (mouseProc os g 0 WM_XBUTTONUP lParam).effects =
        [Effect.call Slot.onMouseUp f
            { Button := XButton1, X := (os.mem lParam).Pt.X, Y := (os.mem lParam).Pt.Y, Delta := 0 },
          Effect.callNextHookEx 0 0 WM_XBUTTONUP lParam]) := by
  have h1 : (os.mem lParam).MouseData >>> 16 % 2 = 1 := by
    rw [Nat.shiftRight_eq_div_pow]
    exact hbit
  constructor
  · intro f hf
    simp [mouseProc, invoke, hf, h1, uintptr_zero]
  · intro f hf
    simp [mouseProc, invoke, hf, h1, uintptr_zero]

/-- Witness of C4: position (100,200), `MouseData = 0x00010000`,
`WM_XBUTTONDOWN`: the on-down listener is called once with
`{XButton1, 100, 200, 0}`. -/
theorem xbutton1_decoding_witness :
    (0x00010000 : Nat) / 2 ^ 16 % 2 = 1 ∧
    (mouseProc ⟨fun _ => ⟨⟨100, 200⟩, 0x00010000, 0, 0, 0⟩, fun _ _ _ _ => 1, 0, fun _ => 1, fun _ => 0⟩
        ⟨0, some 1, some 2, some 3⟩ 0 WM_XBUTTONDOWN 64).effects =
      [Effect.call Slot.onMouseDown 1 { Button := XButton1, X := 100, Y := 200, Delta := 0 },
        Effect.callNextHookEx 0 0 WM_XBUTTONDOWN 64] :=
  ⟨by decide,
    (xbutton1_decoding ⟨fun _ => ⟨⟨100, 200⟩, 0x00010000, 0, 0, 0⟩, fun _ _ _ _ => 1, 0, fun _ => 1, fun _ => 0⟩
      ⟨0, some 1, some 2, some 3⟩ 64 (by decide)).1 1 rfl⟩

/-- C5, as stated, fails: with high word 0x0003 bit 0x0002 is set, yet
`WM_XBUTTONDOWN` is decoded to `XButton1`, not `XButton2`. -/
theorem xbutton2_decoding_counterexample :
    (0x00030000 : Nat) / 2 ^ 16 / 2 % 2 = 1 ∧
    (mouseProc ⟨fun _ => ⟨⟨100, 200⟩, 0x00030000, 0, 0, 0⟩, fun _ _ _ _ => 1, 0, fun _ => 1, fun _ => 0⟩
        ⟨0, some 1, some 2, some 3⟩ 0 WM_XBUTTONDOWN 64).effects =
      [Effect.call Slot.onMouseDown 1 { Button := XButton1, X := 100, Y := 200, Delta := 0 },
        Effect.callNextHookEx 0 0 WM_XBUTTONDOWN 64] ∧
    (mouseProc ⟨fun _ => ⟨⟨100, 200⟩, 0x00030000, 0, 0, 0⟩, fun _ _ _ _ => 1, 0, fun _ => 1, fun _ => 0⟩
        ⟨0, some 1, some 2, some 3⟩ 0 WM_XBUTTONDOWN 64).effects ≠
      [Effect.call Slot.onMouseDown 1 { Button := XButton2, X := 100, Y := 200, Delta := 0 },
        Effect.callNextHookEx 0 0 WM_XBUTTONDOWN 64] := by
  decide

/-- C5, amended. Extended button 2: when bit 0x0002 of the high word of
`MouseData` is set and bit 0x0001 is clear, `mouseProc` with `nCode = 0` decodes
`WM_XBUTTONDOWN` and `WM_XBUTTONUP` to the event `{XButton2, Pt.X, Pt.Y, 0}`,
handed to the listener of `onMouseDown` (resp. `onMouseUp`). -/
theorem xbutton2_decoding (os : Platform) (g : Globals) (lParam : Nat)
    (hbit2 : (os.mem lParam).MouseData / 2 ^ 16 / 2 % 2 = 1)
    (hbit1 : (os.mem lParam).MouseData / 2 ^ 16 % 2 = 0) :
    (∀ f, g.onMouseDown = some f →
      (mouseProc os g 0 WM_XBUTTONDOWN lParam).effects =
        [Effect.call Slot.onMouseDown f
            { Button := XButton2, X := (os.mem lParam).Pt.X, Y := (os.mem lParam).Pt.Y, Delta := 0 },
          Effect.callNextHookEx 0 0 WM_XBUTTONDOWN lParam]) ∧
    (∀ f, g.onMouseUp = some f →
      (mouseProc os g 0 WM_XBUTTONUP lParam).effects =
        [Effect.call Slot.onMouseUp f
            { Button := XButton2, X := (os.mem lParam).Pt.X, Y := (os.mem lParam).Pt.Y, Delta := 0 },
          Effect.callNextHookEx 0 0 WM_XBUTTONUP lParam]) := by
  have h1 : (os.mem lParam).MouseData >>> 16 % 2 = 0 := by
    rw [Nat.shiftRight_eq_div_pow]
    exact hbit1
  have h2 : ¬ ((os.mem lParam).MouseData >>> 16) &&& XBUTTON2 = 0 := by
    rw [← ne_eq, and_XBUTTON2_ne_zero_iff, Nat.shiftRight_eq_div_pow]
    exact hbit2
  constructor
  · intro f hf
    simp [mouseProc, invoke, hf, h1, h2, uintptr_zero]
  · intro f hf
    simp [mouseProc, invoke, hf, h1, h2, uintptr_zero]

/-- Witness of amended C5: `MouseData = 0x00020000` and `WM_XBUTTONUP` give
`{XButton2, 100, 200, 0}` to the on-up listener. -/
theorem xbutton2_decoding_witness :
    ((0x00020000 : Nat) / 2 ^ 16 / 2 % 2 = 1 ∧ (0x00020000 : Nat) / 2 ^ 16 % 2 = 0) ∧
    (mouseProc ⟨fun _ => ⟨⟨100, 200⟩, 0x00020000, 0, 0, 0⟩, fun _ _ _ _ => 1, 0, fun _ => 1, fun _ => 0⟩
        ⟨0, some 1, some 2, some 3⟩ 0 WM_XBUTTONUP 64).effects =
      [Effect.call Slot.onMouseUp 2 { Button := XButton2, X := 100, Y := 200, Delta := 0 },
        Effect.callNextHookEx 0 0 WM_XBUTTONUP 64] :=
  ⟨by decide,
    (xbutton2_decoding ⟨fun _ => ⟨⟨100, 200⟩, 0x00020000, 0, 0, 0⟩, fun _ _ _ _ => 1, 0, fun _ => 1, fun _ => 0⟩
      ⟨0, some 1, some 2, some 3⟩ 64 (by decide) (by decide)).2 2 rfl⟩

/-- C6. Extended button with neither bit set: when bits 0x0001 and 0x0002 of
the high word of `MouseData` are both clear, `WM_XBUTTONDOWN` (resp.
`WM_XBUTTONUP`) with `nCode = 0` still calls the registered listener of
`onMouseDown` (resp. `onMouseUp`) exactly once, with the empty `Button`, the
record's position and `Delta = 0`, and then forwards. -/
theorem xbutton_neither_bit (os : Platform) (g : Globals) (lParam : Nat)
    (hbit1 : (os.mem lParam).MouseData / 2 ^ 16 % 2 = 0)
    (hbit2 : (os.mem lParam).MouseData / 2 ^ 16 / 2 % 2 = 0) :
    (∀ f, g.onMouseDown = some f →
      (mouseProc os g 0 WM_XBUTTONDOWN lParam).effects =
        [Effect.call Slot.onMouseDown f
            { Button := "", X := (os.mem lParam).Pt.X, Y := (os.mem lParam).Pt.Y, Delta := 0 },
          Effect.callNextHookEx 0 0 WM_XBUTTONDOWN lParam]) ∧
    (∀ f, g.onMouseUp = some f →
      (mouseProc os g 0 WM_XBUTTONUP lParam).effects =
        [Effect.call Slot.onMouseUp f
            { Button := "", X := (os.mem lParam).Pt.X, Y := (os.mem lParam).Pt.Y, Delta := 0 },
          Effect.callNextHookEx 0 0 WM_XBUTTONUP lParam]) := by
  have h1 : (os.mem lParam).MouseData >>> 16 % 2 = 0 := by
    rw [Nat.shiftRight_eq_div_pow]
    exact hbit1
  have h2 : ((os.mem lParam).MouseData >>> 16) &&& XBUTTON2 = 0 := by
    have h := and_XBUTTON2_ne_zero_iff ((os.mem lParam).MouseData >>> 16)
    rw [Nat.shiftRight_eq_div_pow] at h
    rw [Nat.shiftRight_eq_div_pow]
    by_contra hne
    have := h.mp hne
    omega
  constructor
  · intro f hf
    simp [mouseProc, invoke, hf, h1, h2, uintptr_zero]
  · intro f hf
    simp [mouseProc, invoke, hf, h1, h2, uintptr_zero]

/-- Witness of C6: high word 0x0004 (neither bit), low word 0xFFFF: the
on-down listener is still called, with the empty button. -/
theorem xbutton_neither_bit_witness :
    ((0x0004FFFF : Nat) / 2 ^ 16 % 2 = 0 ∧ (0x0004FFFF : Nat) / 2 ^ 16 / 2 % 2 = 0) ∧
    (mouseProc ⟨fun _ => ⟨⟨-1, 200⟩, 0x0004FFFF, 0, 0, 0⟩, fun _ _ _ _ => 1, 0, fun _ => 1, fun _ => 0⟩
        ⟨0, some 1, some 2, some 3⟩ 0 WM_XBUTTONDOWN 64).effects =
      [Effect.call Slot.onMouseDown 1 { Button := "", X := -1, Y := 200, Delta := 0 },
        Effect.callNextHookEx 0 0 WM_XBUTTONDOWN 64] :=
  ⟨by decide,
    (xbutton_neither_bit ⟨fun _ => ⟨⟨-1, 200⟩, 0x0004FFFF, 0, 0, 0⟩, fun _ _ _ _ => 1, 0, fun _ => 1, fun _ => 0⟩
      ⟨0, some 1, some 2, some 3⟩ 64 (by decide) (by decide)).1 1 rfl⟩

/-! Forwarding. -/

theorem mem_invoke {slot : Slot} {cb : Option Listener} {event : MouseEvent} {e : Effect}
    (h : e ∈ invoke slot cb event) : ∃ f, cb = some f ∧ e = Effect.call slot f event := by
  cases cb with
  | none => simp [invoke] at h
  | some f =>
    simp only [invoke, List.mem_singleton] at h
    exact ⟨f, rfl, h⟩

/-- Every run of `mouseProc` is a (possibly empty) list of listener calls
followed by one call of `CallNextHookEx`. -/
theorem mouseProc_effects_shape (os : Platform) (g : Globals) (nCode : Int) (wParam lParam : Nat) :
    ∃ pre : List Effect,
      (mouseProc os g nCode wParam lParam).effects =
        pre ++ [Effect.callNextHookEx 0 (uintptr nCode) wParam lParam] ∧
      ∀ e ∈ pre, ∃ slot f event, e = Effect.call slot f event := by
  unfold mouseProc
  refine ⟨_, rfl, ?_⟩
  intro e he
  dsimp only at he
  have hcall : ∀ (slot : Slot) (cb : Option Listener) (ev : MouseEvent),
      e ∈ invoke slot cb ev → ∃ slot f event, e = Effect.call slot f event :=
    fun slot cb ev hmem => (mem_invoke hmem).elim fun f hf => ⟨slot, f, ev, hf.2⟩
  by_cases h0 : nCode = 0
  swap
  · rw [if_neg h0] at he
    exact absurd he (List.not_mem_nil e)
  rw [if_pos h0] at he
  by_cases h1 : wParam = WM_LBUTTONDOWN
  · rw [if_pos h1] at he
    exact hcall _ _ _ he
  rw [if_neg h1] at he
  by_cases h2 : wParam = WM_LBUTTONUP
  · rw [if_pos h2] at he
    exact hcall _ _ _ he
  rw [if_neg h2] at he
  by_cases h3 : wParam = WM_RBUTTONDOWN
  · rw [if_pos h3] at he
    exact hcall _ _ _ he
  rw [if_neg h3] at he
  by_cases h4 : wParam = WM_RBUTTONUP
  · rw [if_pos h4] at he
    exact hcall _ _ _ he
  rw [if_neg h4] at he
  by_cases h5 : wParam = WM_MBUTTONDOWN
  · rw [if_pos h5] at he
    exact hcall _ _ _ he
  rw [if_neg h5] at he
  by_cases h6 : wParam = WM_MBUTTONUP
  · rw [if_pos h6] at he
    exact hcall _ _ _ he
  rw [if_neg h6] at he
  by_cases h7 : wParam = WM_XBUTTONDOWN
  · rw [if_pos h7] at he
    exact hcall _ _ _ he
  rw [if_neg h7] at he
  by_cases h8 : wParam = WM_XBUTTONUP
  · rw [if_pos h8] at he
    exact hcall _ _ _ he
  rw [if_neg h8] at he
  by_cases h9 : wParam = WM_MOUSEWHEEL
  · rw [if_pos h9] at he
    exact hcall _ _ _ he
  rw [if_neg h9] at he
  exact absurd he (List.not_mem_nil e)

/-- C7. Never consumes an event: for every `nCode` (a Go `int`), `wParam`,
`lParam`, record and registry, `mouseProc` calls `CallNextHookEx` exactly once,
as its last action, with the `nCode` (as `uintptr`, which converts back to the
same `int`), `wParam` and `lParam` it received, and returns that call's result
unchanged. -/
theorem never_consumes (os : Platform) (g : Globals) (nCode : Int) (wParam lParam : Nat)
    (hlo : -2 ^ 63 ≤ nCode) (hhi : nCode < 2 ^ 63) :
    (mouseProc os g nCode wParam lParam).effects.count
        (Effect.callNextHookEx 0 (uintptr nCode) wParam lParam) = 1 ∧
    (∀ a b c d, Effect.callNextHookEx a b c d ∈ (mouseProc os g nCode wParam lParam).effects →
      a = 0 ∧ b = uintptr nCode ∧ c = wParam ∧ d = lParam) ∧
    (mouseProc os g nCode wParam lParam).effects.getLast? =
      some (Effect.callNextHookEx 0 (uintptr nCode) wParam lParam) ∧
    int (uintptr nCode) = nCode ∧
    (mouseProc os g nCode wParam lParam).ret =
      os.callNextHookEx 0 (uintptr nCode) wParam lParam := by
  obtain ⟨pre, hpre, hcalls⟩ := mouseProc_effects_shape os g nCode wParam lParam
  refine ⟨?_, ?_, ?_, int_uintptr nCode hlo hhi, rfl⟩
  · rw [hpre, List.count_append]
    have h0 : pre.count (Effect.callNextHookEx 0 (uintptr nCode) wParam lParam) = 0 := by
      rw [List.count_eq_zero]
      intro hmem
      obtain ⟨slot, f, event, h⟩ := hcalls _ hmem
      cases h
    rw [h0]
    simp
  · intro a b c d hmem
    rw [hpre, List.mem_append] at hmem
    rcases hmem with hmem | hmem
    · obtain ⟨slot, f, event, h⟩ := hcalls _ hmem
      cases h
    · simp only [List.mem_singleton, Effect.callNextHookEx.injEq] at hmem
      exact hmem
  · rw [hpre]
    simp

/-- Witness of C7: `nCode = -1`, a recognised code and an empty registry: one
`CallNextHookEx` with the same arguments, whose result 42 is returned. -/
theorem never_consumes_witness :
    (-2 ^ 63 ≤ (-1 : Int) ∧ (-1 : Int) < 2 ^ 63) ∧
    (mouseProc ⟨fun _ => ⟨⟨7, -9⟩, 0, 0, 0, 0⟩, fun _ _ _ _ => 42, 0, fun _ => 1, fun _ => 0⟩
        ⟨0, none, none, none⟩ (-1) WM_LBUTTONDOWN 64).effects.getLast? =
      some (Effect.callNextHookEx 0 (uintptr (-1)) WM_LBUTTONDOWN 64) ∧
    int (uintptr (-1)) = -1 ∧
    (mouseProc ⟨fun _ => ⟨⟨7, -9⟩, 0, 0, 0, 0⟩, fun _ _ _ _ => 42, 0, fun _ => 1, fun _ => 0⟩
        ⟨0, none, none, none⟩ (-1) WM_LBUTTONDOWN 64).ret = 42 :=
  ⟨by decide,
    (never_consumes ⟨fun _ => ⟨⟨7, -9⟩, 0, 0, 0, 0⟩, fun _ _ _ _ => 42, 0, fun _ => 1, fun _ => 0⟩
      ⟨0, none, none, none⟩ (-1) WM_LBUTTONDOWN 64 (by decide) (by decide)).2.2⟩

/-! Coordinates. -/

/-- For a recognised code and `nCode = 0`, the run is `invoke` of one callback
variable on an event carrying the record's position, then the forward. -/
theorem mouseProc_recognised (os : Platform) (g : Globals) (lParam wParam : Nat)
    (hcode : wParam ∈ [WM_LBUTTONDOWN, WM_LBUTTONUP, WM_RBUTTONDOWN, WM_RBUTTONUP,
      WM_MBUTTONDOWN, WM_MBUTTONUP, WM_XBUTTONDOWN, WM_XBUTTONUP, WM_MOUSEWHEEL]) :
    ∃ slot cb event,
      (mouseProc os g 0 wParam lParam).effects =
        invoke slot cb event ++ [Effect.callNextHookEx 0 0 wParam lParam] ∧
      event.X = (os.mem lParam).Pt.X ∧ event.Y = (os.mem lParam).Pt.Y ∧
      (cb = g.onMouseDown ∨ cb = g.onMouseUp ∨ cb = g.onMouseWheel) := by
  simp only [List.mem_cons, List.not_mem_nil, or_false] at hcode
  rcases hcode with rfl | rfl | rfl | rfl | rfl | rfl | rfl | rfl | rfl
  · exact ⟨Slot.onMouseDown, g.onMouseDown, _, rfl, rfl, rfl, Or.inl rfl⟩
  · exact ⟨Slot.onMouseUp, g.onMouseUp, _, rfl, rfl, rfl, Or.inr (Or.inl rfl)⟩
  · exact ⟨Slot.onMouseDown, g.onMouseDown, _, rfl, rfl, rfl, Or.inl rfl⟩
  · exact ⟨Slot.onMouseUp, g.onMouseUp, _, rfl, rfl, rfl, Or.inr (Or.inl rfl)⟩
  · exact ⟨Slot.onMouseDown, g.onMouseDown, _, rfl, rfl, rfl, Or.inl rfl⟩
  · exact ⟨Slot.onMouseUp, g.onMouseUp, _, rfl, rfl, rfl, Or.inr (Or.inl rfl)⟩
  · refine ⟨Slot.onMouseDown, g.onMouseDown, _, rfl, ?_, ?_, Or.inl rfl⟩
    · split
      · rfl
      · split <;> rfl
    · split
      · rfl
      · split <;> rfl
  · refine ⟨Slot.onMouseUp, g.onMouseUp, _, rfl, ?_, ?_, Or.inr (Or.inl rfl)⟩
    · split
      · rfl
      · split <;> rfl
    · split
      · rfl
      · split <;> rfl
  · exact ⟨Slot.onMouseWheel, g.onMouseWheel, _, rfl, rfl, rfl, Or.inr (Or.inr rfl)⟩

/-- C8. Coordinates pass through: for every record and each of the nine
recognised codes with `nCode = 0`, every event handed to a listener has
`X = Pt.X` and `Y = Pt.Y` of the record; and when all three callback variables
hold a listener, one is indeed called, exactly once, before the forward. -/
theorem coordinates_pass_through (os : Platform) (g : Globals) (lParam wParam : Nat)
    (hcode : wParam ∈ [WM_LBUTTONDOWN, WM_LBUTTONUP, WM_RBUTTONDOWN, WM_RBUTTONUP,
      WM_MBUTTONDOWN, WM_MBUTTONUP, WM_XBUTTONDOWN, WM_XBUTTONUP, WM_MOUSEWHEEL]) :
    (∀ slot f event, Effect.call slot f event ∈ (mouseProc os g 0 wParam lParam).effects →
      event.X = (os.mem lParam).Pt.X ∧ event.Y = (os.mem lParam).Pt.Y) ∧
    (g.onMouseDown ≠ none → g.onMouseUp ≠ none → g.onMouseWheel ≠ none →
      ∃ slot f event,
        (mouseProc os g 0 wParam lParam).effects =
          [Effect.call slot f event, Effect.callNextHookEx 0 0 wParam lParam] ∧
        event.X = (os.mem lParam).Pt.X ∧ event.Y = (os.mem lParam).Pt.Y) := by
  obtain ⟨slot, cb, ev, heff, hx, hy, hcb⟩ := mouseProc_recognised os g lParam wParam hcode
  constructor
  · intro slot1 f event hmem
    rw [heff, List.mem_append] at hmem
    rcases hmem with hmem | hmem
    · obtain ⟨f1, -, h⟩ := mem_invoke hmem
      cases h
      exact ⟨hx, hy⟩
    · simp at hmem
  · intro hd hu hw
    have hsome : ∃ f, cb = some f := by
      rcases hcb with h | h | h
      · exact h ▸ Option.ne_none_iff_exists'.mp hd
      · exact h ▸ Option.ne_none_iff_exists'.mp hu
      · exact h ▸ Option.ne_none_iff_exists'.mp hw
    obtain ⟨f, rfl⟩ := hsome
    exact ⟨slot, f, ev, heff, hx, hy⟩

/-- Witness of C8: with all three listeners registered, a wheel event at the
negative position (-1920, -5) hands one listener an event with X = -1920 and
Y = -5. -/
theorem coordinates_pass_through_witness :
    WM_MOUSEWHEEL ∈ [WM_LBUTTONDOWN, WM_LBUTTONUP, WM_RBUTTONDOWN, WM_RBUTTONUP,
      WM_MBUTTONDOWN, WM_MBUTTONUP, WM_XBUTTONDOWN, WM_XBUTTONUP, WM_MOUSEWHEEL] ∧
    ∃ slot f event,
      (mouseProc ⟨fun _ => ⟨⟨-1920, -5⟩, 0x00780000, 0, 0, 0⟩, fun _ _ _ _ => 1, 0, fun _ => 1, fun _ => 0⟩
          ⟨0, some 1, some 2, some 3⟩ 0 WM_MOUSEWHEEL 64).effects =
        [Effect.call slot f event, Effect.callNextHookEx 0 0 WM_MOUSEWHEEL 64] ∧
      event.X = -1920 ∧ event.Y = -5 :=
  ⟨by decide,
    (coordinates_pass_through
      ⟨fun _ => ⟨⟨-1920, -5⟩, 0x00780000, 0, 0, 0⟩, fun _ _ _ _ => 1, 0, fun _ => 1, fun _ => 0⟩
      ⟨0, some 1, some 2, some 3⟩ 64 WM_MOUSEWHEEL (by decide)).2
      (by decide) (by decide) (by decide)⟩

/-! Codes and stages that are not classified. -/

/-- C9. Unrecognised code is ignored: for every `wParam` that is none of the
nine recognised constants and every registry, `mouseProc` with `nCode = 0`
calls no listener; its only action is the forward of the event, whose result
it returns. -/
theorem unrecognised_code_ignored (os : Platform) (g : Globals) (lParam wParam : Nat)
    (hcode : wParam ∉ [0x0201, 0x0202, 0x0204, 0x0205, 0x0207, 0x0208, 0x020A, 0x020B, 0x020C]) :
    (mouseProc os g 0 wParam lParam).effects = [Effect.callNextHookEx 0 0 wParam lParam] ∧
    (∀ slot f event, Effect.call slot f event ∉ (mouseProc os g 0 wParam lParam).effects) ∧
    (mouseProc os g 0 wParam lParam).ret = os.callNextHookEx 0 0 wParam lParam := by
  simp only [List.mem_cons, List.not_mem_nil, or_false, not_or] at hcode
  obtain ⟨h1, h2, h3, h4, h5, h6, h7, h8, h9⟩ := hcode
  have heff : (mouseProc os g 0 wParam lParam).effects =
      [Effect.callNextHookEx 0 0 wParam lParam] := by
    unfold mouseProc
    dsimp only
    rw [if_pos rfl, if_neg h1, if_neg h2, if_neg h3, if_neg h4, if_neg h5, if_neg h6, if_neg h8,
      if_neg h9, if_neg h7, uintptr_zero]
    rfl
  refine ⟨heff, ?_, ?_⟩
  · intro slot f event hmem
    rw [heff] at hmem
    simp at hmem
  · show os.callNextHookEx 0 (uintptr 0) wParam lParam = os.callNextHookEx 0 0 wParam lParam
    rw [uintptr_zero]

/-- Witness of C9: mouse-move (0x0200) with all three listeners registered
produces the forward only. -/
theorem unrecognised_code_ignored_witness :
    (0x0200 : Nat) ∉ [0x0201, 0x0202, 0x0204, 0x0205, 0x0207, 0x0208, 0x020A, 0x020B, 0x020C] ∧
    (mouseProc ⟨fun _ => ⟨⟨7, -9⟩, 0xFF880001, 0, 0, 0⟩, fun _ _ _ _ => 42, 0, fun _ => 1, fun _ => 0⟩
        ⟨0, some 1, some 2, some 3⟩ 0 0x0200 64).effects = [Effect.callNextHookEx 0 0 0x0200 64] ∧
    (mouseProc ⟨fun _ => ⟨⟨7, -9⟩, 0xFF880001, 0, 0, 0⟩, fun _ _ _ _ => 42, 0, fun _ => 1, fun _ => 0⟩
        ⟨0, some 1, some 2, some 3⟩ 0 0x0200 64).ret = 42 :=
  ⟨by decide,
    (unrecognised_code_ignored
      ⟨fun _ => ⟨⟨7, -9⟩, 0xFF880001, 0, 0, 0⟩, fun _ _ _ _ => 42, 0, fun _ => 1, fun _ => 0⟩
      ⟨0, some 1, some 2, some 3⟩ 64 0x0200 (by decide)).1,
    (unrecognised_code_ignored
      ⟨fun _ => ⟨⟨7, -9⟩, 0xFF880001, 0, 0, 0⟩, fun _ _ _ _ => 42, 0, fun _ => 1, fun _ => 0⟩
      ⟨0, some 1, some 2, some 3⟩ 64 0x0200 (by decide)).2.2⟩

/-- C10. Stage indicator skip: for every `nCode` other than 0 (in particular
every negative one), every `wParam` and every registry, `mouseProc` classifies
nothing and calls no listener: its only action is the forward, whose result it
returns, and the outcome does not depend on the record behind `lParam` nor on
the registry. -/
theorem stage_indicator_skip (os : Platform) (g : Globals) (nCode : Int) (wParam lParam : Nat)
    (hstage : nCode ≠ 0) :
    (mouseProc os g nCode wParam lParam).effects =
      [Effect.callNextHookEx 0 (uintptr nCode) wParam lParam] ∧
    (∀ slot f event, Effect.call slot f event ∉ (mouseProc os g nCode wParam lParam).effects) ∧
    (mouseProc os g nCode wParam lParam).ret =
      os.callNextHookEx 0 (uintptr nCode) wParam lParam ∧
    (∀ mem1 : Nat → MSLLHOOKSTRUCT,
      mouseProc { os with mem := mem1 } g nCode wParam lParam =
        mouseProc os g nCode wParam lParam) ∧
    (∀ g1 : Globals,
      (mouseProc os g1 nCode wParam lParam).effects =
        (mouseProc os g nCode wParam lParam).effects) := by
  have heff : ∀ (os1 : Platform) (g1 : Globals), (mouseProc os1 g1 nCode wParam lParam).effects =
      [Effect.callNextHookEx 0 (uintptr nCode) wParam lParam] := by
    intro os1 g1
    unfold mouseProc
    dsimp only
    rw [if_neg hstage]
    rfl
  refine ⟨heff os g, ?_, rfl, ?_, ?_⟩
  · intro slot f event hmem
    rw [heff] at hmem
    simp at hmem
  · intro mem1
    unfold mouseProc
    dsimp only
    rw [if_neg hstage, if_neg hstage]
  · intro g1
    rw [heff, heff]

/-- Witness of C10: `nCode = -1` with a left-button-down code and all three
listeners registered: the forward only. -/
theorem stage_indicator_skip_witness :
    (-1 : Int) ≠ 0 ∧
    (mouseProc ⟨fun _ => ⟨⟨7, -9⟩, 0x00010000, 0, 0, 0⟩, fun _ _ _ _ => 42, 0, fun _ => 1, fun _ => 0⟩
        ⟨0, some 1, some 2, some 3⟩ (-1) WM_LBUTTONDOWN 64).effects =
      [Effect.callNextHookEx 0 0xFFFFFFFFFFFFFFFF WM_LBUTTONDOWN 64] :=
  ⟨by decide,
    (stage_indicator_skip
      ⟨fun _ => ⟨⟨7, -9⟩, 0x00010000, 0, 0, 0⟩, fun _ _ _ _ => 42, 0, fun _ => 1, fun _ => 0⟩
      ⟨0, some 1, some 2, some 3⟩ (-1) WM_LBUTTONDOWN 64 (by decide)).1⟩

/-! The branches of `mouseProc`, one family at a time. -/

/-- The button chosen by the two bit tests of the extended-button branches. -/
theorem xbutton_event (m : Nat) (event : MouseEvent) :
    ∃ button,
      (if (m >>> 16) &&& XBUTTON1 ≠ 0 then { event with Button := XButton1 }
        else if (m >>> 16) &&& XBUTTON2 ≠ 0 then { event with Button := XButton2 }
        else event) = { event with Button := button } ∧
      ((m / 2 ^ 16 % 2 = 1 ∧ button = XButton1) ∨
        (m / 2 ^ 16 % 2 = 0 ∧ m / 2 ^ 16 / 2 % 2 = 1 ∧ button = XButton2) ∨
        (m / 2 ^ 16 % 2 = 0 ∧ m / 2 ^ 16 / 2 % 2 = 0 ∧ button = event.Button)) := by
  have h1 := and_XBUTTON1_ne_zero_iff (m >>> 16)
  have h2 := and_XBUTTON2_ne_zero_iff (m >>> 16)
  rw [Nat.shiftRight_eq_div_pow] at h1 h2
  rw [Nat.shiftRight_eq_div_pow]
  by_cases c1 : (m / 2 ^ 16) &&& XBUTTON1 ≠ 0
  · rw [if_pos c1]
    exact ⟨XButton1, rfl, Or.inl ⟨h1.mp c1, rfl⟩⟩
  · rw [if_neg c1]
    have b0 : m / 2 ^ 16 % 2 = 0 := by
      have := mt h1.mpr c1
      omega
    by_cases c2 : (m / 2 ^ 16) &&& XBUTTON2 ≠ 0
    · rw [if_pos c2]
      exact ⟨XButton2, rfl, Or.inr (Or.inl ⟨b0, h2.mp c2, rfl⟩)⟩
    · rw [if_neg c2]
      have b1 : m / 2 ^ 16 / 2 % 2 = 0 := by
        have := mt h2.mpr c2
        omega
      exact ⟨event.Button, rfl, Or.inr (Or.inr ⟨b0, b1, rfl⟩)⟩

/-- Down codes: one `invoke` of `onMouseDown` on an event with `Delta = 0`,
then the forward. -/
theorem mouseProc_down (os : Platform) (g : Globals) (lParam wParam : Nat)
    (hcode : wParam ∈ [WM_LBUTTONDOWN, WM_RBUTTONDOWN, WM_MBUTTONDOWN, WM_XBUTTONDOWN]) :
    ∃ button,
      (mouseProc os g 0 wParam lParam).effects =
        invoke Slot.onMouseDown g.onMouseDown
            { Button := button, X := (os.mem lParam).Pt.X, Y := (os.mem lParam).Pt.Y, Delta := 0 } ++
          [Effect.callNextHookEx 0 0 wParam lParam] ∧
      ((wParam = WM_LBUTTONDOWN ∧ button = LeftButton) ∨
        (wParam = WM_RBUTTONDOWN ∧ button = RightButton) ∨
        (wParam = WM_MBUTTONDOWN ∧ button = MiddleButton) ∨
        (wParam = WM_XBUTTONDOWN ∧
          (((os.mem lParam).MouseData / 2 ^ 16 % 2 = 1 ∧ button = XButton1) ∨
            ((os.mem lParam).MouseData / 2 ^ 16 % 2 = 0 ∧
              (os.mem lParam).MouseData / 2 ^ 16 / 2 % 2 = 1 ∧ button = XButton2) ∨
            ((os.mem lParam).MouseData / 2 ^ 16 % 2 = 0 ∧
              (os.mem lParam).MouseData / 2 ^ 16 / 2 % 2 = 0 ∧ button = "")))) := by
  simp only [List.mem_cons, List.not_mem_nil, or_false] at hcode
  rcases hcode with rfl | rfl | rfl | rfl
  · exact ⟨LeftButton, rfl, Or.inl ⟨rfl, rfl⟩⟩
  · exact ⟨RightButton, rfl, Or.inr (Or.inl ⟨rfl, rfl⟩)⟩
  · exact ⟨MiddleButton, rfl, Or.inr (Or.inr (Or.inl ⟨rfl, rfl⟩))⟩
  · obtain ⟨button, hev, hbits⟩ := xbutton_event (os.mem lParam).MouseData
      { Button := "", X := (os.mem lParam).Pt.X, Y := (os.mem lParam).Pt.Y, Delta := 0 }
    refine ⟨button, ?_, Or.inr (Or.inr (Or.inr ⟨rfl, hbits⟩))⟩
    show invoke Slot.onMouseDown g.onMouseDown _ ++ _ = _
    rw [hev]
    rfl

/-- Up codes: one `invoke` of `onMouseUp` on an event with `Delta = 0`, then the
forward. -/
theorem mouseProc_up (os : Platform) (g : Globals) (lParam wParam : Nat)
    (hcode : wParam ∈ [WM_LBUTTONUP, WM_RBUTTONUP, WM_MBUTTONUP, WM_XBUTTONUP]) :
    ∃ button,
      (mouseProc os g 0 wParam lParam).effects =
        invoke Slot.onMouseUp g.onMouseUp
            { Button := button, X := (os.mem lParam).Pt.X, Y := (os.mem lParam).Pt.Y, Delta := 0 } ++
          [Effect.callNextHookEx 0 0 wParam lParam] ∧
      ((wParam = WM_LBUTTONUP ∧ button = LeftButton) ∨
        (wParam = WM_RBUTTONUP ∧ button = RightButton) ∨
        (wParam = WM_MBUTTONUP ∧ button = MiddleButton) ∨
        (wParam = WM_XBUTTONUP ∧
          (((os.mem lParam).MouseData / 2 ^ 16 % 2 = 1 ∧ button = XButton1) ∨
            ((os.mem lParam).MouseData / 2 ^ 16 % 2 = 0 ∧
              (os.mem lParam).MouseData / 2 ^ 16 / 2 % 2 = 1 ∧ button = XButton2) ∨
            ((os.mem lParam).MouseData / 2 ^ 16 % 2 = 0 ∧
              (os.mem lParam).MouseData / 2 ^ 16 / 2 % 2 = 0 ∧ button = "")))) := by
  simp only [List.mem_cons, List.not_mem_nil, or_false] at hcode
  rcases hcode with rfl | rfl | rfl | rfl
  · exact ⟨LeftButton, rfl, Or.inl ⟨rfl, rfl⟩⟩
  · exact ⟨RightButton, rfl, Or.inr (Or.inl ⟨rfl, rfl⟩)⟩
  · exact ⟨MiddleButton, rfl, Or.inr (Or.inr (Or.inl ⟨rfl, rfl⟩))⟩
  · obtain ⟨button, hev, hbits⟩ := xbutton_event (os.mem lParam).MouseData
      { Button := "", X := (os.mem lParam).Pt.X, Y := (os.mem lParam).Pt.Y, Delta := 0 }
    refine ⟨button, ?_, Or.inr (Or.inr (Or.inr ⟨rfl, hbits⟩))⟩
    show invoke Slot.onMouseUp g.onMouseUp _ ++ _ = _
    rw [hev]
    rfl

/-- The wheel code: one `invoke` of `onMouseWheel`, then the forward. -/
theorem mouseProc_wheel (os : Platform) (g : Globals) (lParam : Nat) :
    (mouseProc os g 0 WM_MOUSEWHEEL lParam).effects =
      invoke Slot.onMouseWheel g.onMouseWheel
          { Button := Wheel, X := (os.mem lParam).Pt.X, Y := (os.mem lParam).Pt.Y,
            Delta := int16 ((os.mem lParam).MouseData >>> 16) } ++
        [Effect.callNextHookEx 0 0 WM_MOUSEWHEEL lParam] :=
  rfl

/-- Outside the nine codes, or with `nCode` other than 0, the forward is the
only effect. -/
theorem mouseProc_skipped (os : Platform) (g : Globals) (nCode : Int) (wParam lParam : Nat)
    (hskip : nCode ≠ 0 ∨ wParam ∉ [WM_LBUTTONDOWN, WM_LBUTTONUP, WM_RBUTTONDOWN, WM_RBUTTONUP,
      WM_MBUTTONDOWN, WM_MBUTTONUP, WM_XBUTTONDOWN, WM_XBUTTONUP, WM_MOUSEWHEEL]) :
    (mouseProc os g nCode wParam lParam).effects =
      [Effect.callNextHookEx 0 (uintptr nCode) wParam lParam] := by
  unfold mouseProc
  dsimp only
  by_cases h0 : nCode = 0
  · rcases hskip with hn | hcode
    · exact absurd h0 hn
    · simp only [List.mem_cons, List.not_mem_nil, or_false, not_or] at hcode
      obtain ⟨h1, h2, h3, h4, h5, h6, h7, h8, h9⟩ := hcode
      rw [if_pos h0, if_neg h1, if_neg h2, if_neg h3, if_neg h4, if_neg h5, if_neg h6, if_neg h7,
        if_neg h8, if_neg h9]
      rfl
  · rw [if_neg h0]
    rfl

theorem calls_invoke_forward (slot : Slot) (cb : Option Listener) (event : MouseEvent)
    (a b c d : Nat) :
    calls (invoke slot cb event ++ [Effect.callNextHookEx a b c d]) =
      match cb with
      | some f => [(slot, f, event)]
      | none => [] := by
  cases cb <;> rfl

theorem calls_forward (a b c d : Nat) : calls [Effect.callNextHookEx a b c d] = [] :=
  rfl

/-! The registry. -/

/-- C11. Callback replacement: in each of the three slots, registering listener
A and then listener B leaves the slot holding B; on the next matching event
(any down code for `SetMouseDownCallback`, any up code for
`SetMouseUpCallback`, the wheel code for `SetMouseWheelCallback`) `mouseProc`
calls B exactly once, through that slot, and makes no other call: A, being
another listener, is not called. -/
theorem callback_replacement (os : Platform) (g : Globals) (lParam : Nat) (a b : Listener)
    (hab : a ≠ b) :
    ((SetMouseDownCallback (SetMouseDownCallback g (some a)) (some b)).onMouseDown = some b ∧
      ∀ wParam ∈ [WM_LBUTTONDOWN, WM_RBUTTONDOWN, WM_MBUTTONDOWN, WM_XBUTTONDOWN],
        (∃ event,
          calls (mouseProc os (SetMouseDownCallback (SetMouseDownCallback g (some a)) (some b))
            0 wParam lParam).effects = [(Slot.onMouseDown, b, event)]) ∧
        ∀ c ∈ calls (mouseProc os (SetMouseDownCallback (SetMouseDownCallback g (some a)) (some b))
            0 wParam lParam).effects, c.2.1 ≠ a) ∧
    ((SetMouseUpCallback (SetMouseUpCallback g (some a)) (some b)).onMouseUp = some b ∧
      ∀ wParam ∈ [WM_LBUTTONUP, WM_RBUTTONUP, WM_MBUTTONUP, WM_XBUTTONUP],
        (∃ event,
          calls (mouseProc os (SetMouseUpCallback (SetMouseUpCallback g (some a)) (some b))
            0 wParam lParam).effects = [(Slot.onMouseUp, b, event)]) ∧
        ∀ c ∈ calls (mouseProc os (SetMouseUpCallback (SetMouseUpCallback g (some a)) (some b))
            0 wParam lParam).effects, c.2.1 ≠ a) ∧
    ((SetMouseWheelCallback (SetMouseWheelCallback g (some a)) (some b)).onMouseWheel = some b ∧
      (∃ event,
        calls (mouseProc os (SetMouseWheelCallback (SetMouseWheelCallback g (some a)) (some b))
          0 WM_MOUSEWHEEL lParam).effects = [(Slot.onMouseWheel, b, event)]) ∧
      ∀ c ∈ calls (mouseProc os (SetMouseWheelCallback (SetMouseWheelCallback g (some a)) (some b))
          0 WM_MOUSEWHEEL lParam).effects, c.2.1 ≠ a) := by
  have hba : b ≠ a := fun h => hab h.symm
  refine ⟨⟨rfl, ?_⟩, ⟨rfl, ?_⟩, ⟨rfl, ?_⟩⟩
  · intro wParam hcode
    obtain ⟨button, heff, -⟩ := mouseProc_down os
      (SetMouseDownCallback (SetMouseDownCallback g (some a)) (some b)) lParam wParam hcode
    rw [heff, calls_invoke_forward]
    refine ⟨⟨_, rfl⟩, ?_⟩
    intro c hc
    have hc1 : c = (Slot.onMouseDown, b, _) := List.mem_singleton.mp hc
    rw [hc1]
    exact hba
  · intro wParam hcode
    obtain ⟨button, heff, -⟩ := mouseProc_up os
      (SetMouseUpCallback (SetMouseUpCallback g (some a)) (some b)) lParam wParam hcode
    rw [heff, calls_invoke_forward]
    refine ⟨⟨_, rfl⟩, ?_⟩
    intro c hc
    have hc1 : c = (Slot.onMouseUp, b, _) := List.mem_singleton.mp hc
    rw [hc1]
    exact hba
  · rw [mouseProc_wheel, calls_invoke_forward]
    refine ⟨⟨_, rfl⟩, ?_⟩
    intro c hc
    have hc1 : c = (Slot.onMouseWheel, b, _) := List.mem_singleton.mp hc
    rw [hc1]
    exact hba

/-- Witness of C11: listener 1 then listener 2 registered for button-down; a
left-button press at (7,-9) calls listener 2 once and nothing else. -/
theorem callback_replacement_witness :
    (1 : Listener) ≠ 2 ∧
    calls (mouseProc
        ⟨fun _ => ⟨⟨7, -9⟩, 0, 0, 0, 0⟩, fun _ _ _ _ => 1, 0, fun _ => 1, fun _ => 0⟩
        (SetMouseDownCallback (SetMouseDownCallback ⟨0, none, some 1, some 1⟩ (some 1)) (some 2))
        0 WM_LBUTTONDOWN 64).effects =
      [(Slot.onMouseDown, 2, { Button := LeftButton, X := 7, Y := -9, Delta := 0 })] ∧
    ∀ c ∈ calls (mouseProc
        ⟨fun _ => ⟨⟨7, -9⟩, 0, 0, 0, 0⟩, fun _ _ _ _ => 1, 0, fun _ => 1, fun _ => 0⟩
        (SetMouseDownCallback (SetMouseDownCallback ⟨0, none, some 1, some 1⟩ (some 1)) (some 2))
        0 WM_LBUTTONDOWN 64).effects, c.2.1 ≠ 1 :=
  ⟨by decide, by decide,
    ((callback_replacement
      ⟨fun _ => ⟨⟨7, -9⟩, 0, 0, 0, 0⟩, fun _ _ _ _ => 1, 0, fun _ => 1, fun _ => 0⟩
      ⟨0, none, some 1, some 1⟩ 64 1 2 (by decide)).1.2 WM_LBUTTONDOWN (by decide)).2⟩

/-- C17. Setter frame: each of the three setters stores its argument (a
listener or nil) in its own callback variable and leaves the other two
variables and the stored hook handle as they were; `mouseProc` leaves all four
package variables as it found them. -/
theorem setter_frame (g : Globals) (callback : Option Listener) :
    ((SetMouseDownCallback g callback).onMouseDown = callback ∧
      (SetMouseDownCallback g callback).onMouseUp = g.onMouseUp ∧
      (SetMouseDownCallback g callback).onMouseWheel = g.onMouseWheel ∧
      (SetMouseDownCallback g callback).hook = g.hook) ∧
    ((SetMouseUpCallback g callback).onMouseUp = callback ∧
      (SetMouseUpCallback g callback).onMouseDown = g.onMouseDown ∧
      (SetMouseUpCallback g callback).onMouseWheel = g.onMouseWheel ∧
      (SetMouseUpCallback g callback).hook = g.hook) ∧
    ((SetMouseWheelCallback g callback).onMouseWheel = callback ∧
      (SetMouseWheelCallback g callback).onMouseDown = g.onMouseDown ∧
      (SetMouseWheelCallback g callback).onMouseUp = g.onMouseUp ∧
      (SetMouseWheelCallback g callback).hook = g.hook) ∧
    (∀ (os : Platform) (nCode : Int) (wParam lParam : Nat),
      (mouseProc os g nCode wParam lParam).globals = g) :=
  ⟨⟨rfl, rfl, rfl, rfl⟩, ⟨rfl, rfl, rfl, rfl⟩, ⟨rfl, rfl, rfl, rfl⟩, fun _ _ _ _ => rfl⟩

/-! The hook handle and the message loop. -/

/-- C14. Release is safe to repeat: `unhook` always returns, whatever
`UnhookWindowsHookEx` reports (the two platforms stand for the replies to the
first and to the second call); called twice in a row, or with the stored
handle 0, it passes the stored handle to `UnhookWindowsHookEx` each time and
leaves the handle and the three callback variables unchanged. -/
theorem release_repeatable (os1 os2 : Platform) (g : Globals) :
    unhook os1 g = (g, [Effect.unhookWindowsHookEx g.hook]) ∧
    unhook os2 (unhook os1 g).1 = (g, [Effect.unhookWindowsHookEx g.hook]) ∧
    unhook os1 g = unhook os2 g ∧
    (g.hook = 0 → unhook os1 g = (g, [Effect.unhookWindowsHookEx 0])) := by
  refine ⟨rfl, rfl, rfl, ?_⟩
  intro h0
  unfold unhook
  rw [h0]

/-- Witness of C14: no hook installed (handle 0), the platform reporting
failure (0) the first time and success (1) the second: both calls return and
the package variables stay as they were. -/
theorem release_repeatable_witness :
    (⟨0, some 1, none, some 3⟩ : Globals).hook = 0 ∧
    unhook ⟨fun _ => ⟨⟨0, 0⟩, 0, 0, 0, 0⟩, fun _ _ _ _ => 1, 0, fun _ => 1, fun _ => 0⟩
        (unhook ⟨fun _ => ⟨⟨0, 0⟩, 0, 0, 0, 0⟩, fun _ _ _ _ => 1, 0, fun _ => 0, fun _ => 0⟩
          ⟨0, some 1, none, some 3⟩).1 =
      (⟨0, some 1, none, some 3⟩, [Effect.unhookWindowsHookEx 0]) :=
  ⟨rfl,
    (release_repeatable
      ⟨fun _ => ⟨⟨0, 0⟩, 0, 0, 0, 0⟩, fun _ _ _ _ => 1, 0, fun _ => 0, fun _ => 0⟩
      ⟨fun _ => ⟨⟨0, 0⟩, 0, 0, 0, 0⟩, fun _ _ _ _ => 1, 0, fun _ => 1, fun _ => 0⟩
      ⟨0, some 1, none, some 3⟩).2.1⟩

theorem pump_exits (os : Platform) (n : Nat) :
    ∀ (fuel i : Nat), (∀ j < n, int32 (os.getMessage (i + j)) ≠ -1) →
      int32 (os.getMessage (i + n)) = -1 → n < fuel →
      pump os fuel i =
        some (List.replicate (n + 1) Effect.getMessage ++ [Effect.println "GetMessage 错误:"]) := by
  induction n with
  | zero =>
    intro fuel i _ hat hfuel
    obtain ⟨k, rfl⟩ : ∃ k, fuel = k + 1 := ⟨fuel - 1, by omega⟩
    rw [Nat.add_zero] at hat
    unfold pump
    dsimp only
    rw [if_pos hat]
    rfl
  | succ n ih =>
    intro fuel i hbefore hat hfuel
    obtain ⟨k, rfl⟩ : ∃ k, fuel = k + 1 := ⟨fuel - 1, by omega⟩
    have h0 : int32 (os.getMessage i) ≠ -1 := by
      have := hbefore 0 (Nat.succ_pos n)
      rwa [Nat.add_zero] at this
    have hrest := ih k (i + 1)
      (fun j hj => by
        have := hbefore (j + 1) (by omega)
        rwa [show i + (j + 1) = i + 1 + j by omega] at this)
      (by rwa [show i + (n + 1) = i + 1 + n by omega] at hat)
      (by omega)
    unfold pump
    dsimp only
    rw [if_neg h0, hrest]
    rfl

theorem pump_running (os : Platform) :
    ∀ (fuel i : Nat), (∀ j < fuel, int32 (os.getMessage (i + j)) ≠ -1) → pump os fuel i = none := by
  intro fuel
  induction fuel with
  | zero =>
    intro i _
    rfl
  | succ k ih =>
    intro i hbefore
    have h0 : int32 (os.getMessage i) ≠ -1 := by
      have := hbefore 0 (Nat.succ_pos k)
      rwa [Nat.add_zero] at this
    have hrest := ih (i + 1)
      (fun j hj => by
        have := hbefore (j + 1) (by omega)
        rwa [show i + (j + 1) = i + 1 + j by omega] at this)
    unfold pump
    dsimp only
    rw [if_neg h0, hrest]
    rfl

/-- C13. Pump termination: with the results of `GetMessageW` given as a
sequence, when result `n` is the first whose low 32 bits read -1, `Start`
returns: it has installed the hook, called `GetMessageW` exactly `n + 1` times
(going on after every earlier result, a result of 0 included), printed the
diagnostic, and called `UnhookWindowsHookEx` exactly once, last, with the
handle `SetWindowsHookExW` returned; before those `n + 1` retrievals the loop
is still running, and it never exits when no result is the sentinel. -/
theorem pump_termination (os : Platform) (g : Globals) :
    (∀ n, (∀ i < n, int32 (os.getMessage i) ≠ -1) → int32 (os.getMessage n) = -1 →
      (∀ fuel, n < fuel →
        Start os g fuel =
          some ({ g with hook := os.setWindowsHookEx },
            Effect.setWindowsHookEx WH_MOUSE_LL ::
              (if os.setWindowsHookEx = 0 then [Effect.println "设置钩子失败:"] else []) ++
              (List.replicate (n + 1) Effect.getMessage ++ [Effect.println "GetMessage 错误:"]) ++
              [Effect.unhookWindowsHookEx os.setWindowsHookEx])) ∧
      (∀ fuel, fuel ≤ n → Start os g fuel = none)) ∧
    ((∀ i, int32 (os.getMessage i) ≠ -1) → ∀ fuel, Start os g fuel = none) := by
  constructor
  · intro n hbefore hat
    constructor
    · intro fuel hfuel
      have hpump := pump_exits os n fuel 0
        (fun j hj => by rw [Nat.zero_add]; exact hbefore j hj)
        (by rw [Nat.zero_add]; exact hat) hfuel
      unfold Start
      dsimp only
      rw [hpump]
      rfl
    · intro fuel hfuel
      have hpump := pump_running os fuel 0
        (fun j hj => by rw [Nat.zero_add]; exact hbefore j (by omega))
      unfold Start
      dsimp only
      rw [hpump]
  · intro hnever fuel
    have hpump := pump_running os fuel 0 (fun j _ => hnever (0 + j))
    unfold Start
    dsimp only
    rw [hpump]

/-- Witness of C13: results 0, 1, 0xFFFFFFFF: the loop goes on after the 0 and
the 1, exits at the third retrieval, and the handle 77 is released once. -/
theorem pump_termination_witness :
    ((∀ i < 2, int32 ((fun k : Nat => if k = 2 then 0xFFFFFFFF else k) i) ≠ -1) ∧
      int32 ((fun k : Nat => if k = 2 then 0xFFFFFFFF else k) 2) = -1 ∧ 2 < 5) ∧
    Start ⟨fun _ => ⟨⟨0, 0⟩, 0, 0, 0, 0⟩, fun _ _ _ _ => 1, 77, fun _ => 1,
        fun k => if k = 2 then 0xFFFFFFFF else k⟩ ⟨0, some 1, none, some 3⟩ 5 =
      some (⟨77, some 1, none, some 3⟩,
        [Effect.setWindowsHookEx WH_MOUSE_LL, Effect.getMessage, Effect.getMessage,
          Effect.getMessage, Effect.println "GetMessage 错误:", Effect.unhookWindowsHookEx 77]) :=
  ⟨by decide,
    ((pump_termination ⟨fun _ => ⟨⟨0, 0⟩, 0, 0, 0, 0⟩, fun _ _ _ _ => 1, 77, fun _ => 1,
        fun k => if k = 2 then 0xFFFFFFFF else k⟩ ⟨0, some 1, none, some 3⟩).1 2
      (by decide) (by decide)).1 5 (by decide)⟩

/-! Routing. -/

/-- Every run of `mouseProc`, for any input, is one `invoke` followed by the
forward; which callback variable is read, and what the event holds, follows
the code. -/
theorem mouseProc_routed (os : Platform) (g : Globals) (nCode : Int) (wParam lParam : Nat) :
    ∃ slot cb event,
      (mouseProc os g nCode wParam lParam).effects =
        invoke slot cb event ++ [Effect.callNextHookEx 0 (uintptr nCode) wParam lParam] ∧
      ((nCode = 0 ∧ wParam ∈ [WM_LBUTTONDOWN, WM_RBUTTONDOWN, WM_MBUTTONDOWN, WM_XBUTTONDOWN] ∧
          slot = Slot.onMouseDown ∧ cb = g.onMouseDown ∧ event.Delta = 0 ∧ event.Button ≠ Wheel) ∨
        (nCode = 0 ∧ wParam ∈ [WM_LBUTTONUP, WM_RBUTTONUP, WM_MBUTTONUP, WM_XBUTTONUP] ∧
          slot = Slot.onMouseUp ∧ cb = g.onMouseUp ∧ event.Delta = 0 ∧ event.Button ≠ Wheel) ∨
        (nCode = 0 ∧ wParam = WM_MOUSEWHEEL ∧
          slot = Slot.onMouseWheel ∧ cb = g.onMouseWheel ∧ event.Button = Wheel) ∨
        ((nCode ≠ 0 ∨ wParam ∉ [WM_LBUTTONDOWN, WM_LBUTTONUP, WM_RBUTTONDOWN, WM_RBUTTONUP,
            WM_MBUTTONDOWN, WM_MBUTTONUP, WM_XBUTTONDOWN, WM_XBUTTONUP, WM_MOUSEWHEEL]) ∧
          cb = none)) := by
  have hdummy : MouseEvent := { Button := "", X := 0, Y := 0, Delta := 0 }
  by_cases h0 : nCode = 0
  swap
  · exact ⟨Slot.onMouseDown, none, hdummy, mouseProc_skipped os g nCode wParam lParam (Or.inl h0),
      Or.inr (Or.inr (Or.inr ⟨Or.inl h0, rfl⟩))⟩
  subst h0
  by_cases hd : wParam ∈ [WM_LBUTTONDOWN, WM_RBUTTONDOWN, WM_MBUTTONDOWN, WM_XBUTTONDOWN]
  · obtain ⟨button, heff, hbutton⟩ := mouseProc_down os g lParam wParam hd
    refine ⟨Slot.onMouseDown, g.onMouseDown, _, heff, Or.inl ⟨rfl, hd, rfl, rfl, rfl, ?_⟩⟩
    show button ≠ Wheel
    rcases hbutton with ⟨-, rfl⟩ | ⟨-, rfl⟩ | ⟨-, rfl⟩ | ⟨-, ⟨-, rfl⟩ | ⟨-, -, rfl⟩ | ⟨-, -, rfl⟩⟩ <;>
      decide
  by_cases hu : wParam ∈ [WM_LBUTTONUP, WM_RBUTTONUP, WM_MBUTTONUP, WM_XBUTTONUP]
  · obtain ⟨button, heff, hbutton⟩ := mouseProc_up os g lParam wParam hu
    refine ⟨Slot.onMouseUp, g.onMouseUp, _, heff, Or.inr (Or.inl ⟨rfl, hu, rfl, rfl, rfl, ?_⟩)⟩
    show button ≠ Wheel
    rcases hbutton with ⟨-, rfl⟩ | ⟨-, rfl⟩ | ⟨-, rfl⟩ | ⟨-, ⟨-, rfl⟩ | ⟨-, -, rfl⟩ | ⟨-, -, rfl⟩⟩ <;>
      decide
  by_cases hw : wParam = WM_MOUSEWHEEL
  · subst hw
    exact ⟨Slot.onMouseWheel, g.onMouseWheel, _, mouseProc_wheel os g lParam,
      Or.inr (Or.inr (Or.inl ⟨rfl, rfl, rfl, rfl, rfl⟩))⟩
  · have hnone : wParam ∉ [WM_LBUTTONDOWN, WM_LBUTTONUP, WM_RBUTTONDOWN, WM_RBUTTONUP,
        WM_MBUTTONDOWN, WM_MBUTTONUP, WM_XBUTTONDOWN, WM_XBUTTONUP, WM_MOUSEWHEEL] := by
      simp only [List.mem_cons, List.not_mem_nil, or_false, not_or] at hd hu ⊢
      exact ⟨hd.1, hu.1, hd.2.1, hu.2.1, hd.2.2.1, hu.2.2.1, hd.2.2.2, hu.2.2.2, hw⟩
    exact ⟨Slot.onMouseDown, none, hdummy, mouseProc_skipped os g 0 wParam lParam (Or.inr hnone),
      Or.inr (Or.inr (Or.inr ⟨Or.inr hnone, rfl⟩))⟩

theorem mem_calls {slot : Slot} {f : Listener} {event : MouseEvent} {l : List Effect} :
    (slot, f, event) ∈ calls l ↔ Effect.call slot f event ∈ l := by
  induction l with
  | nil => simp [calls]
  | cons e rest ih =>
    cases e <;> simp [calls, ih]

/-- C12. Delta is zero off the wheel: for each of the eight down and up codes
(L/R/M/X), whatever `MouseData` holds, the event that `mouseProc` builds and
offers to `onMouseDown` or `onMouseUp` has `Delta = 0`; and for every input,
an event handed to a listener through `onMouseDown` or `onMouseUp` has
`Delta = 0`, so a delivered event with a non-zero `Delta` has `Button = Wheel`. -/
theorem delta_zero_off_wheel (os : Platform) (g : Globals) (lParam : Nat) :
    (∀ wParam ∈ [WM_LBUTTONDOWN, WM_LBUTTONUP, WM_RBUTTONDOWN, WM_RBUTTONUP,
        WM_MBUTTONDOWN, WM_MBUTTONUP, WM_XBUTTONDOWN, WM_XBUTTONUP],
      ∃ slot cb button,
        (slot = Slot.onMouseDown ∧ cb = g.onMouseDown ∨ slot = Slot.onMouseUp ∧ cb = g.onMouseUp) ∧
        (mouseProc os g 0 wParam lParam).effects =
          invoke slot cb
              { Button := button, X := (os.mem lParam).Pt.X, Y := (os.mem lParam).Pt.Y,
                Delta := 0 } ++
            [Effect.callNextHookEx 0 0 wParam lParam]) ∧
    (∀ (nCode : Int) (wParam : Nat) slot f event,
      Effect.call slot f event ∈ (mouseProc os g nCode wParam lParam).effects →
        (slot = Slot.onMouseDown ∨ slot = Slot.onMouseUp → event.Delta = 0) ∧
        (event.Delta ≠ 0 → event.Button = Wheel)) := by
  constructor
  · intro wParam hcode
    by_cases hd : wParam ∈ [WM_LBUTTONDOWN, WM_RBUTTONDOWN, WM_MBUTTONDOWN, WM_XBUTTONDOWN]
    · obtain ⟨button, heff, -⟩ := mouseProc_down os g lParam wParam hd
      exact ⟨Slot.onMouseDown, g.onMouseDown, button, Or.inl ⟨rfl, rfl⟩, heff⟩
    · have hu : wParam ∈ [WM_LBUTTONUP, WM_RBUTTONUP, WM_MBUTTONUP, WM_XBUTTONUP] := by
        simp only [List.mem_cons, List.not_mem_nil, or_false, not_or] at hd hcode ⊢
        tauto
      obtain ⟨button, heff, -⟩ := mouseProc_up os g lParam wParam hu
      exact ⟨Slot.onMouseUp, g.onMouseUp, button, Or.inr ⟨rfl, rfl⟩, heff⟩
  · intro nCode wParam slot f event hcall
    obtain ⟨slot1, cb, ev, heff, hroute⟩ := mouseProc_routed os g nCode wParam lParam
    rw [heff, List.mem_append] at hcall
    have hinv : slot = slot1 ∧ event = ev := by
      rcases hcall with hcall | hcall
      · obtain ⟨f1, -, h⟩ := mem_invoke hcall
        cases h
        exact ⟨rfl, rfl⟩
      · simp at hcall
    obtain ⟨rfl, rfl⟩ := hinv
    rcases hroute with ⟨-, -, rfl, -, hdelta, -⟩ | ⟨-, -, rfl, -, hdelta, -⟩ |
      ⟨-, -, rfl, -, hbutton⟩ | ⟨-, rfl⟩
    · exact ⟨fun _ => hdelta, fun hne => absurd hdelta hne⟩
    · exact ⟨fun _ => hdelta, fun hne => absurd hdelta hne⟩
    · refine ⟨fun hslot => ?_, fun _ => hbutton⟩
      rcases hslot with h | h <;> cases h
    · rcases hcall with hcall | hcall
      · simp [invoke] at hcall
      · simp at hcall

/-- Witness of C12: an extended-button press whose `MouseData` has the
non-zero high word 0xFF89 still builds an event with `Delta = 0`. -/
theorem delta_zero_off_wheel_witness :
    WM_XBUTTONDOWN ∈ [WM_LBUTTONDOWN, WM_LBUTTONUP, WM_RBUTTONDOWN, WM_RBUTTONUP,
        WM_MBUTTONDOWN, WM_MBUTTONUP, WM_XBUTTONDOWN, WM_XBUTTONUP] ∧
    ∃ slot cb button,
      (slot = Slot.onMouseDown ∧ cb = some 1 ∨ slot = Slot.onMouseUp ∧ cb = some 2) ∧
      (mouseProc ⟨fun _ => ⟨⟨7, -9⟩, 0xFF890000, 0, 0, 0⟩, fun _ _ _ _ => 1, 0, fun _ => 1, fun _ => 0⟩
          ⟨0, some 1, some 2, some 3⟩ 0 WM_XBUTTONDOWN 64).effects =
        invoke slot cb { Button := button, X := 7, Y := -9, Delta := 0 } ++
          [Effect.callNextHookEx 0 0 WM_XBUTTONDOWN 64] :=
  ⟨by decide,
    (delta_zero_off_wheel
      ⟨fun _ => ⟨⟨7, -9⟩, 0xFF890000, 0, 0, 0⟩, fun _ _ _ _ => 1, 0, fun _ => 1, fun _ => 0⟩
      ⟨0, some 1, some 2, some 3⟩ 64).1 WM_XBUTTONDOWN (by decide)⟩

theorem down_code_not_other {wParam : Nat}
    (hd : wParam ∈ [WM_LBUTTONDOWN, WM_RBUTTONDOWN, WM_MBUTTONDOWN, WM_XBUTTONDOWN]) :
    wParam ∉ [WM_LBUTTONUP, WM_RBUTTONUP, WM_MBUTTONUP, WM_XBUTTONUP] ∧ wParam ≠ WM_MOUSEWHEEL := by
  simp only [List.mem_cons, List.not_mem_nil, or_false] at hd
  rcases hd with rfl | rfl | rfl | rfl <;> decide

theorem up_code_not_other {wParam : Nat}
    (hu : wParam ∈ [WM_LBUTTONUP, WM_RBUTTONUP, WM_MBUTTONUP, WM_XBUTTONUP]) :
    wParam ∉ [WM_LBUTTONDOWN, WM_RBUTTONDOWN, WM_MBUTTONDOWN, WM_XBUTTONDOWN] ∧
      wParam ≠ WM_MOUSEWHEEL := by
  simp only [List.mem_cons, List.not_mem_nil, or_false] at hu
  rcases hu with rfl | rfl | rfl | rfl <;> decide

/-- C15. Exclusive slot routing: for every input and registry one run of
`mouseProc` makes at most one listener call; a call made for a down code
(L/R/M/X) goes to the listener held in `onMouseDown`, for an up code to the one
in `onMouseUp`, for `WM_MOUSEWHEEL` to the one in `onMouseWheel`; and with all
three variables set, each of the nine recognised codes with `nCode = 0` causes
exactly one call. -/
theorem exclusive_slot_routing (os : Platform) (g : Globals) (lParam : Nat) :
    (∀ (nCode : Int) (wParam : Nat),
      (calls (mouseProc os g nCode wParam lParam).effects).length ≤ 1) ∧
    (∀ (nCode : Int) (wParam : Nat) slot f event,
      (slot, f, event) ∈ calls (mouseProc os g nCode wParam lParam).effects →
        (wParam ∈ [WM_LBUTTONDOWN, WM_RBUTTONDOWN, WM_MBUTTONDOWN, WM_XBUTTONDOWN] →
          slot = Slot.onMouseDown ∧ g.onMouseDown = some f) ∧
        (wParam ∈ [WM_LBUTTONUP, WM_RBUTTONUP, WM_MBUTTONUP, WM_XBUTTONUP] →
          slot = Slot.onMouseUp ∧ g.onMouseUp = some f) ∧
        (wParam = WM_MOUSEWHEEL → slot = Slot.onMouseWheel ∧ g.onMouseWheel = some f)) ∧
    (g.onMouseDown ≠ none → g.onMouseUp ≠ none → g.onMouseWheel ≠ none →
      ∀ wParam ∈ [WM_LBUTTONDOWN, WM_LBUTTONUP, WM_RBUTTONDOWN, WM_RBUTTONUP,
          WM_MBUTTONDOWN, WM_MBUTTONUP, WM_XBUTTONDOWN, WM_XBUTTONUP, WM_MOUSEWHEEL],
        (calls (mouseProc os g 0 wParam lParam).effects).length = 1) := by
  refine ⟨?_, ?_, ?_⟩
  · intro nCode wParam
    obtain ⟨slot, cb, ev, heff, -⟩ := mouseProc_routed os g nCode wParam lParam
    rw [heff, calls_invoke_forward]
    cases cb <;> simp
  · intro nCode wParam slot f event hcall
    obtain ⟨slot1, cb, ev, heff, hroute⟩ := mouseProc_routed os g nCode wParam lParam
    rw [heff, calls_invoke_forward] at hcall
    have hinv : slot = slot1 ∧ cb = some f := by
      cases cb with
      | none => simp at hcall
      | some f1 =>
        simp only [List.mem_singleton, Prod.mk.injEq] at hcall
        exact ⟨hcall.1, by rw [hcall.2.1]⟩
    obtain ⟨rfl, rfl⟩ := hinv
    rcases hroute with ⟨-, hcode, rfl, hcb, -, -⟩ | ⟨-, hcode, rfl, hcb, -, -⟩ |
      ⟨-, hcode, rfl, hcb, -⟩ | ⟨-, hcb⟩
    · exact ⟨fun _ => ⟨rfl, hcb.symm⟩, fun hup => absurd hup (down_code_not_other hcode).1,
        fun hw => absurd hw (down_code_not_other hcode).2⟩
    · exact ⟨fun hdown => absurd hdown (up_code_not_other hcode).1, fun _ => ⟨rfl, hcb.symm⟩,
        fun hw => absurd hw (up_code_not_other hcode).2⟩
    · exact ⟨fun hdown => absurd hcode (down_code_not_other hdown).2,
        fun hup => absurd hcode (up_code_not_other hup).2, fun _ => ⟨rfl, hcb.symm⟩⟩
    · cases hcb
  · intro hd hu hw wParam hcode
    obtain ⟨slot, cb, ev, heff, hroute⟩ := mouseProc_routed os g 0 wParam lParam
    rw [heff, calls_invoke_forward]
    have hsome : ∃ f, cb = some f := by
      rcases hroute with ⟨-, -, -, hcb, -, -⟩ | ⟨-, -, -, hcb, -, -⟩ | ⟨-, -, -, hcb, -⟩ |
        ⟨hskip, -⟩
      · exact hcb ▸ Option.ne_none_iff_exists'.mp hd
      · exact hcb ▸ Option.ne_none_iff_exists'.mp hu
      · exact hcb ▸ Option.ne_none_iff_exists'.mp hw
      · rcases hskip with h | h
        · exact absurd rfl h
        · exact absurd hcode h
    obtain ⟨f, rfl⟩ := hsome
    rfl

/-- Witness of C15: all three listeners registered, a right-button release:
the only call is to the listener of `onMouseUp`. -/
theorem exclusive_slot_routing_witness :
    ((some 1 : Option Listener) ≠ none ∧ (some 2 : Option Listener) ≠ none ∧
      (some 3 : Option Listener) ≠ none ∧
      WM_RBUTTONUP ∈ [WM_LBUTTONDOWN, WM_LBUTTONUP, WM_RBUTTONDOWN, WM_RBUTTONUP,
        WM_MBUTTONDOWN, WM_MBUTTONUP, WM_XBUTTONDOWN, WM_XBUTTONUP, WM_MOUSEWHEEL]) ∧
    (calls (mouseProc
        ⟨fun _ => ⟨⟨7, -9⟩, 0xFF890000, 0, 0, 0⟩, fun _ _ _ _ => 1, 0, fun _ => 1, fun _ => 0⟩
        ⟨0, some 1, some 2, some 3⟩ 0 WM_RBUTTONUP 64).effects).length = 1 ∧
    calls (mouseProc
        ⟨fun _ => ⟨⟨7, -9⟩, 0xFF890000, 0, 0, 0⟩, fun _ _ _ _ => 1, 0, fun _ => 1, fun _ => 0⟩
        ⟨0, some 1, some 2, some 3⟩ 0 WM_RBUTTONUP 64).effects =
      [(Slot.onMouseUp, 2, { Button := RightButton, X := 7, Y := -9, Delta := 0 })] :=
  ⟨by decide,
    (exclusive_slot_routing
      ⟨fun _ => ⟨⟨7, -9⟩, 0xFF890000, 0, 0, 0⟩, fun _ _ _ _ => 1, 0, fun _ => 1, fun _ => 0⟩
      ⟨0, some 1, some 2, some 3⟩ 64).2.2 (by decide) (by decide) (by decide) WM_RBUTTONUP
      (by decide),
    by decide⟩

/-! What the decoding depends on. -/

/-- The button of the extended-button branches is fixed by bits 0x0001 and
0x0002 of the high word. -/
theorem xbutton_spec_unique {m1 m2 : Nat} {b1 b2 : MouseButton}
    (h0 : m1 / 2 ^ 16 % 2 = m2 / 2 ^ 16 % 2) (h1 : m1 / 2 ^ 16 / 2 % 2 = m2 / 2 ^ 16 / 2 % 2)
    (s1 : (m1 / 2 ^ 16 % 2 = 1 ∧ b1 = XButton1) ∨
      (m1 / 2 ^ 16 % 2 = 0 ∧ m1 / 2 ^ 16 / 2 % 2 = 1 ∧ b1 = XButton2) ∨
      (m1 / 2 ^ 16 % 2 = 0 ∧ m1 / 2 ^ 16 / 2 % 2 = 0 ∧ b1 = ""))
    (s2 : (m2 / 2 ^ 16 % 2 = 1 ∧ b2 = XButton1) ∨
      (m2 / 2 ^ 16 % 2 = 0 ∧ m2 / 2 ^ 16 / 2 % 2 = 1 ∧ b2 = XButton2) ∨
      (m2 / 2 ^ 16 % 2 = 0 ∧ m2 / 2 ^ 16 / 2 % 2 = 0 ∧ b2 = "")) :
    b1 = b2 := by
  rcases s1 with ⟨a0, rfl⟩ | ⟨a0, a1, rfl⟩ | ⟨a0, a1, rfl⟩ <;>
    rcases s2 with ⟨c0, rfl⟩ | ⟨c0, c1, rfl⟩ | ⟨c0, c1, rfl⟩ <;>
    first
      | rfl
      | omega

/-- The extended-button down code: the `invoke` of `onMouseDown`, with the
button described by the two bits. -/
theorem mouseProc_xdown (os : Platform) (g : Globals) (lParam : Nat) :
    ∃ button,
      (mouseProc os g 0 WM_XBUTTONDOWN lParam).effects =
        invoke Slot.onMouseDown g.onMouseDown
            { Button := button, X := (os.mem lParam).Pt.X, Y := (os.mem lParam).Pt.Y, Delta := 0 } ++
          [Effect.callNextHookEx 0 0 WM_XBUTTONDOWN lParam] ∧
      (((os.mem lParam).MouseData / 2 ^ 16 % 2 = 1 ∧ button = XButton1) ∨
        ((os.mem lParam).MouseData / 2 ^ 16 % 2 = 0 ∧
          (os.mem lParam).MouseData / 2 ^ 16 / 2 % 2 = 1 ∧ button = XButton2) ∨
        ((os.mem lParam).MouseData / 2 ^ 16 % 2 = 0 ∧
          (os.mem lParam).MouseData / 2 ^ 16 / 2 % 2 = 0 ∧ button = "")) := by
  obtain ⟨button, heff, hbutton⟩ := mouseProc_down os g lParam WM_XBUTTONDOWN (by decide)
  refine ⟨button, heff, ?_⟩
  rcases hbutton with ⟨h, -⟩ | ⟨h, -⟩ | ⟨h, -⟩ | ⟨-, h⟩
  · exact absurd h (by decide)
  · exact absurd h (by decide)
  · exact absurd h (by decide)
  · exact h

/-- The extended-button up code: the `invoke` of `onMouseUp`, with the button
described by the two bits. -/
theorem mouseProc_xup (os : Platform) (g : Globals) (lParam : Nat) :
    ∃ button,
      (mouseProc os g 0 WM_XBUTTONUP lParam).effects =
        invoke Slot.onMouseUp g.onMouseUp
            { Button := button, X := (os.mem lParam).Pt.X, Y := (os.mem lParam).Pt.Y, Delta := 0 } ++
          [Effect.callNextHookEx 0 0 WM_XBUTTONUP lParam] ∧
      (((os.mem lParam).MouseData / 2 ^ 16 % 2 = 1 ∧ button = XButton1) ∨
        ((os.mem lParam).MouseData / 2 ^ 16 % 2 = 0 ∧
          (os.mem lParam).MouseData / 2 ^ 16 / 2 % 2 = 1 ∧ button = XButton2) ∨
        ((os.mem lParam).MouseData / 2 ^ 16 % 2 = 0 ∧
          (os.mem lParam).MouseData / 2 ^ 16 / 2 % 2 = 0 ∧ button = "")) := by
  obtain ⟨button, heff, hbutton⟩ := mouseProc_up os g lParam WM_XBUTTONUP (by decide)
  refine ⟨button, heff, ?_⟩
  rcases hbutton with ⟨h, -⟩ | ⟨h, -⟩ | ⟨h, -⟩ | ⟨-, h⟩
  · exact absurd h (by decide)
  · exact absurd h (by decide)
  · exact absurd h (by decide)
  · exact h

theorem xbutton_spec_iff {m : Nat} {b : MouseButton}
    (hspec : (m / 2 ^ 16 % 2 = 1 ∧ b = XButton1) ∨
      (m / 2 ^ 16 % 2 = 0 ∧ m / 2 ^ 16 / 2 % 2 = 1 ∧ b = XButton2) ∨
      (m / 2 ^ 16 % 2 = 0 ∧ m / 2 ^ 16 / 2 % 2 = 0 ∧ b = "")) :
    (b = XButton1 ↔ m / 2 ^ 16 % 2 = 1) ∧
    (b = XButton2 ↔ m / 2 ^ 16 / 2 % 2 = 1 ∧ m / 2 ^ 16 % 2 = 0) := by
  rcases hspec with ⟨a0, rfl⟩ | ⟨a0, a1, rfl⟩ | ⟨a0, a1, rfl⟩
  · refine ⟨⟨fun _ => a0, fun _ => rfl⟩, ⟨fun h => absurd h (by decide), fun h => ?_⟩⟩
    omega
  · refine ⟨⟨fun h => absurd h (by decide), fun h => ?_⟩, ⟨fun _ => ⟨a1, a0⟩, fun _ => rfl⟩⟩
    omega
  · refine ⟨⟨fun h => absurd h (by decide), fun h => ?_⟩, ⟨fun h => absurd h (by decide), fun h => ?_⟩⟩
    · omega
    · omega

theorem call_forward_eq_iff (slot : Slot) (f : Listener) (b1 b2 : MouseButton) (x y : Int)
    (e : Effect) :
    [Effect.call slot f { Button := b1, X := x, Y := y, Delta := 0 }, e] =
      [Effect.call slot f { Button := b2, X := x, Y := y, Delta := 0 }, e] ↔ b1 = b2 := by
  constructor
  · intro h
    injection h with h1 _
    injection h1 with _ _ h2
    injection h2
  · intro h
    rw [h]

/-- C16. Extended-button priority: for `WM_XBUTTONDOWN` and `WM_XBUTTONUP`
(with `nCode = 0` and a listener registered), the event delivered has
`Button = XButton1` exactly when bit 0x0001 of `MouseData >> 16` is set, and
`Button = XButton2` exactly when bit 0x0002 is set and bit 0x0001 is clear (so
high word 0x0003 gives `XButton1`); a record with the same position and the
same two bits, whatever its other bits and fields, gives the same run. -/
theorem xbutton_priority (os : Platform) (g : Globals) (lParam : Nat) (fd fu : Listener)
    (hd : g.onMouseDown = some fd) (hu : g.onMouseUp = some fu) :
    ((mouseProc os g 0 WM_XBUTTONDOWN lParam).effects =
        [Effect.call Slot.onMouseDown fd
            { Button := XButton1, X := (os.mem lParam).Pt.X, Y := (os.mem lParam).Pt.Y, Delta := 0 },
          Effect.callNextHookEx 0 0 WM_XBUTTONDOWN lParam] ↔
      (os.mem lParam).MouseData / 2 ^ 16 % 2 = 1) ∧
    ((mouseProc os g 0 WM_XBUTTONDOWN lParam).effects =
        [Effect.call Slot.onMouseDown fd
            { Button := XButton2, X := (os.mem lParam).Pt.X, Y := (os.mem lParam).Pt.Y, Delta := 0 },
          Effect.callNextHookEx 0 0 WM_XBUTTONDOWN lParam] ↔
      (os.mem lParam).MouseData / 2 ^ 16 / 2 % 2 = 1 ∧
        (os.mem lParam).MouseData / 2 ^ 16 % 2 = 0) ∧
    ((mouseProc os g 0 WM_XBUTTONUP lParam).effects =
        [Effect.call Slot.onMouseUp fu
            { Button := XButton1, X := (os.mem lParam).Pt.X, Y := (os.mem lParam).Pt.Y, Delta := 0 },
          Effect.callNextHookEx 0 0 WM_XBUTTONUP lParam] ↔
      (os.mem lParam).MouseData / 2 ^ 16 % 2 = 1) ∧
    ((mouseProc os g 0 WM_XBUTTONUP lParam).effects =
        [Effect.call Slot.onMouseUp fu
            { Button := XButton2, X := (os.mem lParam).Pt.X, Y := (os.mem lParam).Pt.Y, Delta := 0 },
          Effect.callNextHookEx 0 0 WM_XBUTTONUP lParam] ↔
      (os.mem lParam).MouseData / 2 ^ 16 / 2 % 2 = 1 ∧
        (os.mem lParam).MouseData / 2 ^ 16 % 2 = 0) ∧
    (∀ mem2 : Nat → MSLLHOOKSTRUCT,
      (mem2 lParam).Pt = (os.mem lParam).Pt →
      (mem2 lParam).MouseData / 2 ^ 16 % 2 = (os.mem lParam).MouseData / 2 ^ 16 % 2 →
      (mem2 lParam).MouseData / 2 ^ 16 / 2 % 2 = (os.mem lParam).MouseData / 2 ^ 16 / 2 % 2 →
      (mouseProc { os with mem := mem2 } g 0 WM_XBUTTONDOWN lParam).effects =
          (mouseProc os g 0 WM_XBUTTONDOWN lParam).effects ∧
        (mouseProc { os with mem := mem2 } g 0 WM_XBUTTONUP lParam).effects =
          (mouseProc os g 0 WM_XBUTTONUP lParam).effects) := by
  obtain ⟨bd, hdown, sd⟩ := mouseProc_xdown os g lParam
  obtain ⟨bu, hup, su⟩ := mouseProc_xup os g lParam
  rw [hd] at hdown
  rw [hu] at hup
  refine ⟨?_, ?_, ?_, ?_, ?_⟩
  · rw [hdown]
    exact (call_forward_eq_iff _ _ _ _ _ _ _).trans (xbutton_spec_iff sd).1
  · rw [hdown]
    exact (call_forward_eq_iff _ _ _ _ _ _ _).trans (xbutton_spec_iff sd).2
  · rw [hup]
    exact (call_forward_eq_iff _ _ _ _ _ _ _).trans (xbutton_spec_iff su).1
  · rw [hup]
    exact (call_forward_eq_iff _ _ _ _ _ _ _).trans (xbutton_spec_iff su).2
  · intro mem2 hPt h0 h1
    obtain ⟨bd2, hdown2, sd2⟩ := mouseProc_xdown { os with mem := mem2 } g lParam
    obtain ⟨bu2, hup2, su2⟩ := mouseProc_xup { os with mem := mem2 } g lParam
    have ed : bd2 = bd := xbutton_spec_unique h0 h1 sd2 sd
    have eu : bu2 = bu := xbutton_spec_unique h0 h1 su2 su
    have hPt2 : ({ os with mem := mem2 } : Platform).mem lParam = mem2 lParam := rfl
    rw [hd] at hdown2
    rw [hu] at hup2
    rw [hPt2, hPt, ed] at hdown2
    rw [hPt2, hPt, eu] at hup2
    exact ⟨hdown2.trans hdown.symm, hup2.trans hup.symm⟩

/-- Witness of C16: high word 0x0003 (both bits set) with a non-zero low word
decodes to `XButton1`. -/
theorem xbutton_priority_witness :
    ((0x0003ABCD : Nat) / 2 ^ 16 % 2 = 1) ∧
    (mouseProc ⟨fun _ => ⟨⟨7, -9⟩, 0x0003ABCD, 0, 0, 0⟩, fun _ _ _ _ => 1, 0, fun _ => 1, fun _ => 0⟩
        ⟨0, some 1, some 2, some 3⟩ 0 WM_XBUTTONDOWN 64).effects =
      [Effect.call Slot.onMouseDown 1 { Button := XButton1, X := 7, Y := -9, Delta := 0 },
        Effect.callNextHookEx 0 0 WM_XBUTTONDOWN 64] :=
  ⟨by decide,
    (xbutton_priority
      ⟨fun _ => ⟨⟨7, -9⟩, 0x0003ABCD, 0, 0, 0⟩, fun _ _ _ _ => 1, 0, fun _ => 1, fun _ => 0⟩
      ⟨0, some 1, some 2, some 3⟩ 64 1 2 rfl rfl).1.mpr (by decide)⟩

theorem int16_congr {x y : Nat} (h : x % 2 ^ 16 = y % 2 ^ 16) : int16 x = int16 y := by
  unfold int16
  rw [h]

/-- C18. Decoding depends only on code, position and high data word: two
records at `lParam` that agree on `Pt` and on the high-order 16 bits of
`MouseData`, and differ arbitrarily in `Flags`, `Time`, `DwExtraInfo` and the
low-order 16 bits of `MouseData`, give the same outcome of `mouseProc` for the
same `nCode`, `wParam` and registry: the same listener call through the same
callback variable with the same event, the same forward and return value. -/
theorem decoding_depends_only_on_position_and_high_word (os : Platform) (g : Globals)
    (nCode : Int) (wParam lParam : Nat) (mem2 : Nat → MSLLHOOKSTRUCT)
    (hPt : (mem2 lParam).Pt = (os.mem lParam).Pt)
    (hhigh : (mem2 lParam).MouseData / 2 ^ 16 % 2 ^ 16 =
      (os.mem lParam).MouseData / 2 ^ 16 % 2 ^ 16) :
    mouseProc { os with mem := mem2 } g nCode wParam lParam =
      mouseProc os g nCode wParam lParam := by
  have e1 : ((mem2 lParam).MouseData >>> 16) &&& XBUTTON1 =
      ((os.mem lParam).MouseData >>> 16) &&& XBUTTON1 := by
    show ((mem2 lParam).MouseData >>> 16) &&& 1 = ((os.mem lParam).MouseData >>> 16) &&& 1
    rw [Nat.and_one_is_mod, Nat.and_one_is_mod, Nat.shiftRight_eq_div_pow,
      Nat.shiftRight_eq_div_pow]
    omega
  have e2 : ((mem2 lParam).MouseData >>> 16) &&& XBUTTON2 =
      ((os.mem lParam).MouseData >>> 16) &&& XBUTTON2 := by
    show ((mem2 lParam).MouseData >>> 16) &&& 2 = ((os.mem lParam).MouseData >>> 16) &&& 2
    rw [and_two_eq, and_two_eq, Nat.shiftRight_eq_div_pow, Nat.shiftRight_eq_div_pow]
    omega
  have e3 : int16 ((mem2 lParam).MouseData >>> 16) = int16 ((os.mem lParam).MouseData >>> 16) := by
    apply int16_congr
    rw [Nat.shiftRight_eq_div_pow, Nat.shiftRight_eq_div_pow]
    exact hhigh
  unfold mouseProc
  dsimp only
  rw [hPt, e1, e2, e3]

/-- Witness of C18: two records at (7,-9) with high word 0x0001, one of them
with the injected flag, another time stamp, extra info and low word: the same
outcome for `WM_XBUTTONDOWN`. -/
theorem decoding_depends_only_on_position_and_high_word_witness :
    ((⟨⟨7, -9⟩, 0x0001BEEF, 1, 123456, 99⟩ : MSLLHOOKSTRUCT).Pt =
        (⟨⟨7, -9⟩, 0x00010000, 0, 0, 0⟩ : MSLLHOOKSTRUCT).Pt ∧
      (0x0001BEEF : Nat) / 2 ^ 16 % 2 ^ 16 = 0x00010000 / 2 ^ 16 % 2 ^ 16) ∧
    mouseProc
        { (⟨fun _ => ⟨⟨7, -9⟩, 0x00010000, 0, 0, 0⟩, fun _ _ _ _ => 1, 0, fun _ => 1,
            fun _ => 0⟩ : Platform) with mem := fun _ => ⟨⟨7, -9⟩, 0x0001BEEF, 1, 123456, 99⟩ }
        ⟨0, some 1, some 2, some 3⟩ 0 WM_XBUTTONDOWN 64 =
      mouseProc ⟨fun _ => ⟨⟨7, -9⟩, 0x00010000, 0, 0, 0⟩, fun _ _ _ _ => 1, 0, fun _ => 1, fun _ => 0⟩
        ⟨0, some 1, some 2, some 3⟩ 0 WM_XBUTTONDOWN 64 :=
  ⟨by decide,
    decoding_depends_only_on_position_and_high_word
      ⟨fun _ => ⟨⟨7, -9⟩, 0x00010000, 0, 0, 0⟩, fun _ _ _ _ => 1, 0, fun _ => 1, fun _ => 0⟩
      ⟨0, some 1, some 2, some 3⟩ 0 WM_XBUTTONDOWN 64
      (fun _ => ⟨⟨7, -9⟩, 0x0001BEEF, 1, 123456, 99⟩) rfl (by decide)⟩

end mousehook
